import Mathlib

/-!
Verification of the chess rules engine in `src/chess.py` (class `ChessGame`).

The engine is embedded shallowly: the mutable `ChessGame` object becomes an
explicit `GameState` value threaded through pure functions.  Function names
follow the source (`is_valid_move`, `can_castle`, `make_move`, ...).  The
board is the source's 8x8 list-of-lists of optional pieces; coordinates are
`Int × Int` pairs `(row, col)` exactly as in the source (`row 0` = black's
back rank, `row 7` = white's back rank).

Two systematic modelling choices, documented where they matter:

* Python indexing out of `0..7` either wraps (negative) or raises; every
  board access the verified claims exercise is in range, and `getCell` /
  `setCell` return `none` / leave the board unchanged out of range.

* The call cycle `is_valid_move → is_valid_king_move → can_castle →
  is_square_attacked → is_valid_move` is genuinely unbounded in the source
  (two kings facing each other two columns apart can make it recurse
  forever), so the cycle carries an explicit `fuel : Nat`; `fuel = 0` makes
  `is_square_attacked` answer `false`.  Theorems quantify over the fuel or
  state which fuel they use.
-/

/-- Piece color; the source encodes white as uppercase and black as
lowercase characters. -/
inductive Color where
  | white
  | black
deriving DecidableEq, Repr

/-- `'black' if player == 'white' else 'white'`, computed inline throughout
the source. -/
def opponent : Color → Color
  | .white => .black
  | .black => .white

/-- The six piece identities of the source's character encoding
(`p r n b q k`). -/
inductive PieceKind where
  | pawn
  | rook
  | knight
  | bishop
  | queen
  | king
deriving DecidableEq, Repr

/-- A piece character of the source: an identity with a color. -/
structure Piece where
  color : Color
  kind : PieceKind
deriving DecidableEq, Repr

/-- A board coordinate `(row, col)` as used by the source. -/
abbrev Pos := Int × Int

/-- The board: `self.board`, a list of 8 rows of 8 optional pieces. -/
abbrev Board := List (List (Option Piece))

/-- The coordinate ranges the source's scans produce (`range(8)`). -/
abbrev onBoard (p : Pos) : Prop := 0 ≤ p.1 ∧ p.1 < 8 ∧ 0 ≤ p.2 ∧ p.2 < 8

/-- `self.board[p.1][p.2]`.  Out of `0..7` the Python read would wrap
(negative) or raise (≥ 8); the engine only reads in range in the verified
claims, and we return `none` out of range. -/
def getCell (b : Board) (p : Pos) : Option Piece :=
  if onBoard p then (b.getD p.1.toNat []).getD p.2.toNat none else none

/-- `self.board[p.1][p.2] = v`, a no-op out of range (see `getCell`). -/
def setCell (b : Board) (p : Pos) (v : Option Piece) : Board :=
  if onBoard p then b.set p.1.toNat ((b.getD p.1.toNat []).set p.2.toNat v) else b

/-- The 64 squares in the source's scan order
(`for i in range(8): for j in range(8)`). -/
def squares : List Pos :=
  (List.range 8).flatMap fun (i : Nat) =>
    (List.range 8).map fun (j : Nat) => ((i : Int), (j : Int))

/-- The per-move undo record `move_state` built at source lines 531-540.
The source also pairs it with a display string in `move_history`; that
string is write-only presentation data and is not modelled. -/
structure MoveState where
  from_pos : Pos
  to_pos : Pos
  piece : Piece
  captured : Option Piece
  en_passant_target_before : Option Pos
  en_passant_capture : Option Piece
  promoted_to : Option PieceKind
  castled : Bool
deriving DecidableEq, Repr

/-- The engine state: the fields of `ChessGame.__init__` that the rules
engine reads or writes.  Display/timer/AI configuration fields
(`use_unicode`, `time_white`, `ai_enabled`, ...) are presentation-layer
and not modelled.  `captured_pieces` is the source's two append-only
lists; the source can append `None` to them in corrupted states, hence
`List (Option Piece)`. -/
structure GameState where
  board : Board
  current_player : Color
  move_history : List MoveState
  captured_white : List (Option Piece)
  captured_black : List (Option Piece)
  white_king_moved : Bool
  black_king_moved : Bool
  white_rook_a_moved : Bool
  white_rook_h_moved : Bool
  black_rook_a_moved : Bool
  black_rook_h_moved : Bool
  en_passant_target : Option Pos
deriving DecidableEq, Repr

/-- `is_white_piece` (source lines 137-139): `piece is not None and
piece.isupper()`. -/
def is_white_piece : Option Piece → Bool
  | some pc => decide (pc.color = Color.white)
  | none => false

/-- `is_black_piece` (source lines 141-143). -/
def is_black_piece : Option Piece → Bool
  | some pc => decide (pc.color = Color.black)
  | none => false

/-- The board resulting from `initialize_board` (source lines 32-44): the
standard initial arrangement. -/
def initial_board : Board :=
  [[some ⟨Color.black, PieceKind.rook⟩, some ⟨Color.black, PieceKind.knight⟩,
    some ⟨Color.black, PieceKind.bishop⟩, some ⟨Color.black, PieceKind.queen⟩,
    some ⟨Color.black, PieceKind.king⟩, some ⟨Color.black, PieceKind.bishop⟩,
    some ⟨Color.black, PieceKind.knight⟩, some ⟨Color.black, PieceKind.rook⟩],
   List.replicate 8 (some ⟨Color.black, PieceKind.pawn⟩),
   List.replicate 8 none,
   List.replicate 8 none,
   List.replicate 8 none,
   List.replicate 8 none,
   List.replicate 8 (some ⟨Color.white, PieceKind.pawn⟩),
   [some ⟨Color.white, PieceKind.rook⟩, some ⟨Color.white, PieceKind.knight⟩,
    some ⟨Color.white, PieceKind.bishop⟩, some ⟨Color.white, PieceKind.queen⟩,
    some ⟨Color.white, PieceKind.king⟩, some ⟨Color.white, PieceKind.bishop⟩,
    some ⟨Color.white, PieceKind.knight⟩, some ⟨Color.white, PieceKind.rook⟩]]

/-- The state built by `ChessGame.__init__` (source lines 11-30): initial
board, white to move, empty histories, no flag set, no en-passant target. -/
def initial_game : GameState :=
  { board := initial_board
    current_player := Color.white
    move_history := []
    captured_white := []
    captured_black := []
    white_king_moved := false
    black_king_moved := false
    white_rook_a_moved := false
    white_rook_h_moved := false
    black_rook_a_moved := false
    black_rook_h_moved := false
    en_passant_target := none }

/-- `range(a, b)` over `Int` as the source uses it for columns; empty when
`b ≤ a`, exactly like Python `range`. -/
def intRange (a b : Int) : List Int :=
  (List.range (b - a).toNat).map (fun (k : Nat) => a + (k : Int))

/-- Row step of `is_path_clear` (source line 357). -/
def rowStep (fp tp : Pos) : Int :=
  if fp.1 = tp.1 then 0 else if tp.1 > fp.1 then 1 else -1

/-- Column step of `is_path_clear` (source line 358). -/
def colStep (fp tp : Pos) : Int :=
  if fp.2 = tp.2 then 0 else if tp.2 > fp.2 then 1 else -1

/-- The `while current != to` loop of `is_path_clear` (source lines
363-367).  The Python loop has no bound; on the aligned inputs its callers
supply it stops within 7 checks (proved below), so fuel `8` is exact there.
The `fuel = 0` value is never reached on aligned inputs. -/
def path_clear_aux (b : Board) (tp : Pos) (rs cs : Int) : Nat → Pos → Bool
  | 0, _ => true
  | n + 1, cur =>
    if cur = tp then true
    else if getCell b cur ≠ none then false
    else path_clear_aux b tp rs cs n (cur.1 + rs, cur.2 + cs)

/-- `is_path_clear` (source lines 352-369): step one square at a time from
`fp` toward `tp`; fail on the first occupied intermediate square; the
destination itself is never inspected. -/
def is_path_clear (b : Board) (fp tp : Pos) : Bool :=
  path_clear_aux b tp (rowStep fp tp) (colStep fp tp) 8
    (fp.1 + rowStep fp tp, fp.2 + colStep fp tp)

/-- `is_valid_pawn_move` (source lines 209-247): forward one onto empty;
forward two from the home rank through an empty intermediate onto empty;
diagonal capture onto an occupied square; diagonal onto the empty
en-passant target. -/
def is_valid_pawn_move (g : GameState) (fp tp : Pos) : Bool :=
  let piece := getCell g.board fp
  let target := getCell g.board tp
  let direction : Int := if is_white_piece piece then -1 else 1
  let start_row : Int := if is_white_piece piece then 6 else 1
  if fp.2 = tp.2 ∧ tp.1 = fp.1 + direction ∧ target = none then true
  else if fp.2 = tp.2 ∧ fp.1 = start_row ∧ tp.1 = fp.1 + 2 * direction ∧
      target = none ∧ getCell g.board (fp.1 + direction, fp.2) = none then true
  else if (fp.2 - tp.2).natAbs = 1 ∧ tp.1 = fp.1 + direction ∧ target ≠ none then true
  else if (fp.2 - tp.2).natAbs = 1 ∧ tp.1 = fp.1 + direction ∧ target = none ∧
      g.en_passant_target = some tp then true
  else false

/-- `is_valid_rook_move` (source lines 249-257). -/
def is_valid_rook_move (g : GameState) (fp tp : Pos) : Bool :=
  if fp.1 ≠ tp.1 ∧ fp.2 ≠ tp.2 then false
  else is_path_clear g.board fp tp

/-- `is_valid_knight_move` (source lines 259-267). -/
def is_valid_knight_move (fp tp : Pos) : Bool :=
  let row_diff := (fp.1 - tp.1).natAbs
  let col_diff := (fp.2 - tp.2).natAbs
  decide ((row_diff = 2 ∧ col_diff = 1) ∨ (row_diff = 1 ∧ col_diff = 2))

/-- `is_valid_bishop_move` (source lines 269-277). -/
def is_valid_bishop_move (g : GameState) (fp tp : Pos) : Bool :=
  if (fp.1 - tp.1).natAbs ≠ (fp.2 - tp.2).natAbs then false
  else is_path_clear g.board fp tp

/-- `is_valid_queen_move` (source lines 279-282). -/
def is_valid_queen_move (g : GameState) (fp tp : Pos) : Bool :=
  is_valid_rook_move g fp tp || is_valid_bishop_move g fp tp

/-- `can_castle` (source lines 302-350), with the attack query abstracted
(`attack g sq c` stands for `self.is_square_attacked(sq, c)`; the fueled
wrapper `can_castle` instantiates it).  The source's early `return False`
chain is rendered as an if-chain in the same order. -/
def can_castle_gen (attack : GameState → Pos → Color → Bool)
    (g : GameState) (fp tp : Pos) : Bool :=
  let piece := getCell g.board fp
  if piece = some ⟨Color.white, PieceKind.king⟩ ∧ g.white_king_moved then false
  else if piece = some ⟨Color.black, PieceKind.king⟩ ∧ g.black_king_moved then false
  else if fp.1 ≠ tp.1 then false
  else if tp.2 > fp.2 ∧ piece = some ⟨Color.white, PieceKind.king⟩ ∧
      g.white_rook_h_moved then false
  else if tp.2 > fp.2 ∧ piece = some ⟨Color.black, PieceKind.king⟩ ∧
      g.black_rook_h_moved then false
  else if ¬ tp.2 > fp.2 ∧ piece = some ⟨Color.white, PieceKind.king⟩ ∧
      g.white_rook_a_moved then false
  else if ¬ tp.2 > fp.2 ∧ piece = some ⟨Color.black, PieceKind.king⟩ ∧
      g.black_rook_a_moved then false
  else
    let rook_col : Int := if tp.2 > fp.2 then 7 else 0
    let cols_between : List Int :=
      if tp.2 > fp.2 then intRange (fp.2 + 1) rook_col else intRange (rook_col + 1) fp.2
    let expected_rook : Option Piece :=
      if is_white_piece piece then some ⟨Color.white, PieceKind.rook⟩
      else some ⟨Color.black, PieceKind.rook⟩
    if getCell g.board (fp.1, rook_col) ≠ expected_rook then false
    else if ¬ (cols_between.all fun c => decide (getCell g.board (fp.1, c) = none)) then false
    else
      (intRange (min fp.2 tp.2) (max fp.2 tp.2 + 1)).all fun c =>
        ! attack g (fp.1, c) (opponent g.current_player)

/-- `is_valid_king_move` (source lines 284-300): adjacent square, or a
two-column move checked by `can_castle`. -/
def is_valid_king_move_gen (attack : GameState → Pos → Color → Bool)
    (g : GameState) (fp tp : Pos) : Bool :=
  let row_diff := (fp.1 - tp.1).natAbs
  let col_diff := (fp.2 - tp.2).natAbs
  if row_diff ≤ 1 ∧ col_diff ≤ 1 then true
  else if row_diff = 0 ∧ col_diff = 2 then can_castle_gen attack g fp tp
  else false

/-- `is_valid_move` (source lines 163-207): reject same-square, empty
source, piece not owned by the side to move, own-piece destination; then
dispatch on the piece identity. -/
def is_valid_move_gen (attack : GameState → Pos → Color → Bool)
    (g : GameState) (fp tp : Pos) : Bool :=
  let piece := getCell g.board fp
  let target := getCell g.board tp
  if fp = tp then false
  else if piece = none then false
  else if g.current_player = Color.white ∧ is_white_piece piece = false then false
  else if g.current_player = Color.black ∧ is_black_piece piece = false then false
  else if g.current_player = Color.white ∧ is_white_piece target = true then false
  else if g.current_player = Color.black ∧ is_black_piece target = true then false
  else
    match piece with
    | none => false
    | some pc =>
      match pc.kind with
      | .pawn => is_valid_pawn_move g fp tp
      | .rook => is_valid_rook_move g fp tp
      | .knight => is_valid_knight_move fp tp
      | .bishop => is_valid_bishop_move g fp tp
      | .queen => is_valid_queen_move g fp tp
      | .king => is_valid_king_move_gen attack g fp tp

/-- `is_square_attacked` (source lines 380-402): scan every square; for
each piece of `byColor`, ask `is_valid_move` with the side to move
temporarily set to `byColor` (the source's swap-and-restore of
`self.current_player`; the restore is verified on the stateful version
below).  Each recursion step through `is_valid_move` consumes one unit of
fuel; the source recurses unboundedly here. -/
def is_square_attacked : Nat → GameState → Pos → Color → Bool
  | 0, _, _, _ => false
  | fuel + 1, g, pos, byColor =>
    squares.any fun p =>
      match getCell g.board p with
      | none => false
      | some pc =>
        if pc.color = byColor then
          is_valid_move_gen (is_square_attacked fuel)
            { g with current_player := byColor } p pos
        else false

/-- `is_valid_move` with the attack oracle at the given fuel. -/
def is_valid_move (fuel : Nat) : GameState → Pos → Pos → Bool :=
  is_valid_move_gen (is_square_attacked fuel)

/-- `is_valid_king_move` with the attack oracle at the given fuel. -/
def is_valid_king_move (fuel : Nat) : GameState → Pos → Pos → Bool :=
  is_valid_king_move_gen (is_square_attacked fuel)

/-- `can_castle` with the attack oracle at the given fuel. -/
def can_castle (fuel : Nat) : GameState → Pos → Pos → Bool :=
  can_castle_gen (is_square_attacked fuel)

/-- `find_king` (source lines 371-378): first square (row-major) holding
the king of the color, `none` when absent. -/
def find_king (b : Board) (color : Color) : Option Pos :=
  squares.findSome? fun p =>
    if getCell b p = some ⟨color, PieceKind.king⟩ then some p else none

/-- `would_be_in_check` (source lines 404-425), value only: place the
piece on `tp`, clear `fp`, locate the mover's king on the mutated board
and ask whether the opponent attacks it.  The source then restores the
board; state restoration is verified on `would_be_in_check_st` below.
When no king is found the source would raise inside
`is_square_attacked(None, ...)` whenever the opponent has a piece (see
`would_be_in_check_st`); here the kingless branch answers `false`, and
theorems that need it assume the king exists. -/
def would_be_in_check (fuel : Nat) (g : GameState) (fp tp : Pos) : Bool :=
  let piece := getCell g.board fp
  let b1 := setCell (setCell g.board tp piece) fp none
  match find_king b1 g.current_player with
  | none => false
  | some kp => is_square_attacked fuel { g with board := b1 } kp (opponent g.current_player)

/-- `get_all_valid_moves` (source lines 427-435): the destinations passing
both the geometric check and the self-check simulation, in scan order. -/
def get_all_valid_moves (fuel : Nat) (g : GameState) (pos : Pos) : List Pos :=
  squares.filter fun tp =>
    is_valid_move fuel g pos tp && ! would_be_in_check fuel g pos tp

/-- Append to `self.captured_pieces[c]` (source lines 472-475, 517-521). -/
def addCaptured (g : GameState) (c : Color) (v : Option Piece) : GameState :=
  match c with
  | .white => { g with captured_white := g.captured_white ++ [v] }
  | .black => { g with captured_black := g.captured_black ++ [v] }

/-- `self.captured_pieces[c].remove(v)` (source lines 631-641): remove the
first occurrence.  Python raises when absent; the engine only removes
values it previously appended. -/
def removeCaptured (g : GameState) (c : Color) (v : Option Piece) : GameState :=
  match c with
  | .white => { g with captured_white := g.captured_white.erase v }
  | .black => { g with captured_black := g.captured_black.erase v }

/-- Step (a) of `make_move` (source lines 465-475): if the move is an
en-passant capture (pawn onto the en-passant target with an empty
destination), remove the pawn behind the destination and append it to the
mover's captured list; returns the updated state and the value recorded
as `en_passant_capture`. -/
def mm_en_passant (g : GameState) (pc : Piece) (tp : Pos) : GameState × Option Piece :=
  let captured := getCell g.board tp
  let direction : Int := if pc.color = Color.white then -1 else 1
  if pc.kind = PieceKind.pawn ∧ g.en_passant_target = some tp ∧ captured = none then
    let epCap := getCell g.board (tp.1 - direction, tp.2)
    (addCaptured { g with board := setCell g.board (tp.1 - direction, tp.2) none }
      g.current_player epCap, epCap)
  else (g, none)

/-- Step (b) of `make_move` (source lines 477-489): the king / home-rook
movement flags, set (never cleared) by the elif chain. -/
def mm_flags (g : GameState) (pc : Piece) (fp : Pos) : GameState :=
  if pc = ⟨Color.white, PieceKind.king⟩ then { g with white_king_moved := true }
  else if pc = ⟨Color.black, PieceKind.king⟩ then { g with black_king_moved := true }
  else if pc = ⟨Color.white, PieceKind.rook⟩ ∧ fp = ((7 : Int), (0 : Int)) then
    { g with white_rook_a_moved := true }
  else if pc = ⟨Color.white, PieceKind.rook⟩ ∧ fp = ((7 : Int), (7 : Int)) then
    { g with white_rook_h_moved := true }
  else if pc = ⟨Color.black, PieceKind.rook⟩ ∧ fp = ((0 : Int), (0 : Int)) then
    { g with black_rook_a_moved := true }
  else if pc = ⟨Color.black, PieceKind.rook⟩ ∧ fp = ((0 : Int), (7 : Int)) then
    { g with black_rook_h_moved := true }
  else g

/-- Step (c) of `make_move` (source lines 491-503): on a two-column king
move, relocate the rook (h-file rook to column 5 kingside, a-file rook to
column 3 queenside). -/
def mm_castle_rook (g : GameState) (pc : Piece) (fp tp : Pos) : GameState :=
  if pc.kind = PieceKind.king ∧ (tp.2 - fp.2).natAbs = 2 then
    let rook_from : Pos := if tp.2 > fp.2 then (fp.1, 7) else (fp.1, 0)
    let rook_to : Pos := if tp.2 > fp.2 then (fp.1, 5) else (fp.1, 3)
    let rook := getCell g.board rook_from
    { g with board := setCell (setCell g.board rook_to rook) rook_from none }
  else g

/-- Step (d) of `make_move` (source lines 505-510): the fresh en-passant
target after a pawn double step, `none` otherwise. -/
def mm_new_ep (pc : Piece) (fp tp : Pos) : Option Pos :=
  if pc.kind = PieceKind.pawn ∧ (tp.1 - fp.1).natAbs = 2 then
    some (fp.1 + (if pc.color = Color.white then -1 else 1), fp.2)
  else none

/-- The promotion test of `make_move` (source lines 525-526): a white pawn
reaching row 0 or a black pawn reaching row 7. -/
def mm_promotes (pc : Piece) (tp : Pos) : Prop :=
  (pc = ⟨Color.white, PieceKind.pawn⟩ ∧ tp.1 = 0) ∨
    (pc = ⟨Color.black, PieceKind.pawn⟩ ∧ tp.1 = 7)

instance (pc : Piece) (tp : Pos) : Decidable (mm_promotes pc tp) := by
  unfold mm_promotes
  infer_instance

/-- `make_move` (source lines 454-549), performed in the source's order:
(a) en-passant capture removes the pawn behind the destination and records
it (`mm_en_passant`), (b) king/rook movement flags (`mm_flags`), (c)
castling rook relocation (`mm_castle_rook`), (d) fresh or cleared
en-passant target (`mm_new_ep`), (e) the piece moves, (f) destination
capture recorded, (g) pawn promotion replaces the pawn in place with the
caller's choice (`promote_pawn`, source lines 574-602, reads it
interactively or auto-queens for the AI; here it is the `promoChoice`
argument), (h) the undo record is appended and the side to move flips.
Note the undo record field `en_passant_target_before` is filled from
`self.en_passant_target` at source line 536, which step (d) at lines
505-510 has already overwritten.  With an empty source square the Python
would raise (`piece.lower()` on `None`); `make_move` is only invoked on
validated moves, and that branch returns the state unchanged. -/
def make_move (g : GameState) (fp tp : Pos) (promoChoice : PieceKind) : GameState :=
  match getCell g.board fp with
  | none => g
  | some pc =>
    let captured := getCell g.board tp
    let epr := mm_en_passant g pc tp
    let g2 := mm_flags epr.1 pc fp
    let g3 := mm_castle_rook g2 pc fp tp
    let newEp := mm_new_ep pc fp tp
    let g4 : GameState := { g3 with en_passant_target := newEp }
    let g5 : GameState := { g4 with board := setCell (setCell g4.board tp (some pc)) fp none }
    let g6 : GameState :=
      if captured ≠ none then addCaptured g5 g.current_player captured else g5
    let promoted_to : Option PieceKind :=
      if mm_promotes pc tp then some promoChoice else none
    let g7 : GameState :=
      if mm_promotes pc tp then
        { g6 with board := setCell g6.board tp (some ⟨pc.color, promoChoice⟩) }
      else g6
    let ms : MoveState :=
      { from_pos := fp
        to_pos := tp
        piece := pc
        captured := captured
        en_passant_target_before := newEp
        en_passant_capture := epr.2
        promoted_to := promoted_to
        castled := decide (pc.kind = PieceKind.king ∧ (tp.2 - fp.2).natAbs = 2) }
    { g7 with
        move_history := g7.move_history ++ [ms]
        current_player := opponent g.current_player }

/-- `undo_move` (source lines 604-657): no-op signalling `false` on empty
history; otherwise pop the last record, flip the side back, restore the
moved and captured pieces, restore the recorded en-passant target,
re-insert an en-passant-captured piece, and put a castling rook back. -/
def undo_move (g : GameState) : Bool × GameState :=
  match g.move_history.getLast? with
  | none => (false, g)
  | some ms =>
    let g0 : GameState := { g with move_history := g.move_history.dropLast }
    let g1 : GameState := { g0 with current_player := opponent g0.current_player }
    let g2 : GameState :=
      { g1 with
          board := setCell (setCell g1.board ms.from_pos (some ms.piece)) ms.to_pos ms.captured }
    let g3 : GameState := { g2 with en_passant_target := ms.en_passant_target_before }
    let direction : Int := if ms.piece.color = Color.white then -1 else 1
    let g4 : GameState :=
      if ms.en_passant_capture.isSome then
        removeCaptured
          { g3 with
              board := setCell g3.board (ms.to_pos.1 - direction, ms.to_pos.2) ms.en_passant_capture }
          g3.current_player ms.en_passant_capture
      else g3
    let g5 : GameState :=
      if ms.captured.isSome then removeCaptured g4 g4.current_player ms.captured else g4
    let g6 : GameState :=
      if ms.castled then
        let rook_from : Pos :=
          if ms.to_pos.2 > ms.from_pos.2 then (ms.from_pos.1, 5) else (ms.from_pos.1, 3)
        let rook_to : Pos :=
          if ms.to_pos.2 > ms.from_pos.2 then (ms.from_pos.1, 7) else (ms.from_pos.1, 0)
        let rook := getCell g5.board rook_from
        { g5 with board := setCell (setCell g5.board rook_to rook) rook_from none }
      else g5
    (true, g6)

/-- The escaping-move search shared verbatim by `is_checkmate` (source
lines 668-683) and `is_stalemate` (source lines 696-711): some piece of
the side to move has a geometrically valid move whose simulation leaves
the king safe. -/
def has_escape (fuel : Nat) (g : GameState) : Bool :=
  squares.any fun fp =>
    match getCell g.board fp with
    | none => false
    | some pc =>
      if pc.color = g.current_player then
        squares.any fun tp =>
          is_valid_move fuel g fp tp && ! would_be_in_check fuel g fp tp
      else false

/-- `is_checkmate` (source lines 659-685): the king is attacked and no
escaping move exists.  In a kingless (corrupted) state the source returns
`False` when the opponent has no piece and raises otherwise; the kingless
branch here answers `false`, and the theorem assumes the king exists. -/
def is_checkmate (fuel : Nat) (g : GameState) : Bool :=
  match find_king g.board g.current_player with
  | none => false
  | some kp =>
    if is_square_attacked fuel g kp (opponent g.current_player) = false then false
    else ! has_escape fuel g

/-- `is_stalemate` (source lines 687-713): the king is not attacked and no
escaping move exists.  Kingless branch as in `is_checkmate`. -/
def is_stalemate (fuel : Nat) (g : GameState) : Bool :=
  match find_king g.board g.current_player with
  | none => false
  | some kp =>
    if is_square_attacked fuel g kp (opponent g.current_player) = true then false
    else ! has_escape fuel g

/-- The scan loop of `is_square_attacked` with the source's mutation of
`self.current_player` made explicit (source lines 393-397): before each
`is_valid_move` probe the side to move is set to `byColor`, and it is
restored before the loop advances or returns. -/
def is_square_attacked_go (fuel : Nat) (pos : Pos) (byColor : Color) :
    List Pos → GameState → Bool × GameState
  | [], g => (false, g)
  | p :: rest, g =>
    match getCell g.board p with
    | none => is_square_attacked_go fuel pos byColor rest g
    | some pc =>
      if pc.color = byColor then
        let originalPlayer := g.current_player
        let gSwapped := { g with current_player := byColor }
        let valid := is_valid_move fuel gSwapped p pos
        let gRestored := { gSwapped with current_player := originalPlayer }
        if valid then (true, gRestored)
        else is_square_attacked_go fuel pos byColor rest gRestored
      else is_square_attacked_go fuel pos byColor rest g

/-- `is_square_attacked` with its state effects explicit. -/
def is_square_attacked_st (fuel : Nat) (g : GameState) (pos : Pos) (byColor : Color) :
    Bool × GameState :=
  is_square_attacked_go fuel pos byColor squares g

/-- Whether any piece of color `c` is on the board (scan order as in
`is_square_attacked`). -/
def existsPieceOfColor (b : Board) (c : Color) : Bool :=
  squares.any fun p =>
    match getCell b p with
    | some pc => decide (pc.color = c)
    | none => false

/-- `would_be_in_check` (source lines 404-425) with its state effects
explicit: mutate the board, locate the king, run the attack scan, restore
the board unconditionally.  `none` models the exceptional path of the
source: when `find_king` yields `None` and the opponent has at least one
piece, `is_square_attacked(None, ...)` raises inside `is_valid_move`
(unpacking `None`) and the board is left mutated, so there is no return
path; with no opponent piece the scan returns `False` untouched and the
board is restored. -/
def would_be_in_check_st (fuel : Nat) (g : GameState) (fp tp : Pos) :
    Option (Bool × GameState) :=
  let piece := getCell g.board fp
  let captured := getCell g.board tp
  let b1 := setCell (setCell g.board tp piece) fp none
  let g1 : GameState := { g with board := b1 }
  match find_king b1 g.current_player with
  | some kp =>
    let r := is_square_attacked_st fuel g1 kp (opponent g.current_player)
    some (r.1, { r.2 with board := setCell (setCell r.2.board fp piece) tp captured })
  | none =>
    if existsPieceOfColor b1 (opponent g.current_player) then none
    else some (false, { g1 with board := setCell (setCell g1.board fp piece) tp captured })

/-- All moves of color `c`: the union over the squares holding a piece of
`c` of `get_all_valid_moves`, tagged with their source square (the
aggregation claim C8 quantifies, and the scan `make_ai_move` performs at
source lines 771-793). -/
def movesFromAll (fuel : Nat) (g : GameState) (c : Color) : List (Pos × Pos) :=
  (squares.filter fun p =>
      match getCell g.board p with
      | some pc => decide (pc.color = c)
      | none => false).flatMap
    fun p => (get_all_valid_moves fuel g p).map (fun tp => (p, tp))

/-- An 8x8 board whose rows all have length 8, as `initialize_board`
builds and the engine maintains. -/
def BoardWF (b : Board) : Prop :=
  b.length = 8 ∧ ∀ row ∈ b, row.length = 8

instance (b : Board) : Decidable (BoardWF b) := by
  unfold BoardWF
  infer_instance

/-- Board of the claim C2 counterexample: white king a5 = (3,0), black
pawn d5 = (3,3) (which has just double-stepped), white pawn e5 = (3,4),
black queen h5 = (3,7), black king h8 = (0,7). -/
def epBoard : Board :=
  [(List.replicate 8 (none : Option Piece)).set 7 (some ⟨Color.black, PieceKind.king⟩),
   List.replicate 8 none,
   List.replicate 8 none,
   [some ⟨Color.white, PieceKind.king⟩, none, none,
    some ⟨Color.black, PieceKind.pawn⟩, some ⟨Color.white, PieceKind.pawn⟩,
    none, none, some ⟨Color.black, PieceKind.queen⟩],
   List.replicate 8 none,
   List.replicate 8 none,
   List.replicate 8 none,
   List.replicate 8 none]

/-- State of the claim C2 counterexample: white to move, en-passant target
d6 = (2,3) set by black's preceding double step d7-d5. -/
def gEP : GameState :=
  { board := epBoard
    current_player := Color.white
    move_history := []
    captured_white := []
    captured_black := []
    white_king_moved := true
    black_king_moved := true
    white_rook_a_moved := true
    white_rook_h_moved := true
    black_rook_a_moved := true
    black_rook_h_moved := true
    en_passant_target := some ((2 : Int), (3 : Int)) }

/-- Home column of the rook of the side being castled toward (source
lines 319-332): column 7 kingside, column 0 queenside. -/
def castleRookCol (fp tp : Pos) : Int :=
  if tp.2 > fp.2 then 7 else 0

/-- The castling preconditions exactly as claim C3 lists them, phrased
over the state: the mover's king has never moved; the corresponding rook
(kingside or queenside, tracked per rook) has never moved; the move is
horizontal (the king stays on the row where the rook is looked up); every
square strictly between king and rook is empty; the rook occupies the
expected home square; and no square from the king's start column through
its end column inclusive is attacked by the opponent. -/
def castlingPreconditions (fuel : Nat) (g : GameState) (fp tp : Pos) : Prop :=
  (g.current_player = Color.white → g.white_king_moved = false) ∧
  (g.current_player = Color.black → g.black_king_moved = false) ∧
  ((if tp.2 > fp.2 then
      (if g.current_player = Color.white then g.white_rook_h_moved else g.black_rook_h_moved)
    else
      (if g.current_player = Color.white then g.white_rook_a_moved else g.black_rook_a_moved))
    = false) ∧
  tp.1 = fp.1 ∧
  (∀ c : Int, min fp.2 (castleRookCol fp tp) < c → c < max fp.2 (castleRookCol fp tp) →
    getCell g.board (fp.1, c) = none) ∧
  getCell g.board (fp.1, castleRookCol fp tp) = some ⟨g.current_player, PieceKind.rook⟩ ∧
  (∀ c : Int, min fp.2 tp.2 ≤ c → c ≤ max fp.2 tp.2 →
    is_square_attacked fuel g (fp.1, c) (opponent g.current_player) = false)

/-- Number of steps of `is_path_clear`'s walk from `fp` to `tp` when the
two are aligned: the Chebyshev distance. -/
def lineDist (fp tp : Pos) : Nat :=
  max (fp.1 - tp.1).natAbs (fp.2 - tp.2).natAbs

/-- The k-th square of `is_path_clear`'s walk from `fp` toward `tp`. -/
def linePoint (fp tp : Pos) (k : Nat) : Pos :=
  (fp.1 + k * rowStep fp tp, fp.2 + k * colStep fp tp)

/-- Alignment precondition of `is_path_clear`: same row, same column, or
same diagonal. -/
def aligned (fp tp : Pos) : Prop :=
  fp.1 = tp.1 ∨ fp.2 = tp.2 ∨ (fp.1 - tp.1).natAbs = (fp.2 - tp.2).natAbs

/-- The forward direction of a pawn of the given color, `-1 if
is_white_piece(piece) else 1` in the source. -/
def pawnDir : Color → Int
  | .white => -1
  | .black => 1

/-- A castling-ready position for the witness of claim C3: white king on
e1, white rooks on a1 and h1, black king on e8, nothing else, white to
move, no flag set. -/
def gCastle : GameState :=
  { board :=
      [(List.replicate 8 (none : Option Piece)).set 4 (some ⟨Color.black, PieceKind.king⟩),
       List.replicate 8 none,
       List.replicate 8 none,
       List.replicate 8 none,
       List.replicate 8 none,
       List.replicate 8 none,
       List.replicate 8 none,
       [some ⟨Color.white, PieceKind.rook⟩, none, none, none,
        some ⟨Color.white, PieceKind.king⟩, none, none,
        some ⟨Color.white, PieceKind.rook⟩]]
    current_player := Color.white
    move_history := []
    captured_white := []
    captured_black := []
    white_king_moved := false
    black_king_moved := false
    white_rook_a_moved := false
    white_rook_h_moved := false
    black_rook_a_moved := false
    black_rook_h_moved := false
    en_passant_target := none }

/-! ## Helper lemmas about the board representation -/

lemma mem_squares {p : Pos} : p ∈ squares ↔ onBoard p := by
  constructor
  · intro h
    rw [squares, List.mem_flatMap] at h
    obtain ⟨i, hi, hp⟩ := h
    rw [List.mem_map] at hp
    obtain ⟨j, hj, rfl⟩ := hp
    rw [List.mem_range] at hi hj
    exact ⟨by omega, by omega, by omega, by omega⟩
  · intro h
    obtain ⟨r, c⟩ := p
    obtain ⟨h1, h2, h3, h4⟩ := h
    rw [squares, List.mem_flatMap]
    refine ⟨r.toNat, by rw [List.mem_range]; omega, ?_⟩
    rw [List.mem_map]
    refine ⟨c.toNat, by rw [List.mem_range]; omega, ?_⟩
    rw [Prod.mk.injEq]
    constructor <;> omega

lemma mem_intRange {a b c : Int} : c ∈ intRange a b ↔ a ≤ c ∧ c < b := by
  simp only [intRange, List.mem_map, List.mem_range]
  constructor
  · rintro ⟨k, hk, rfl⟩
    omega
  · rintro ⟨h1, h2⟩
    exact ⟨(c - a).toNat, by omega, by omega⟩

lemma list_set_self {α : Type} (l : List α) (i : Nat) (h : i < l.length) :
    l.set i l[i] = l := by
  apply List.ext_getElem?
  intro j
  rw [List.getElem?_set]
  split
  · next heq => subst heq; simp [h, List.getElem?_eq_getElem h]
  · rfl

lemma list_set_getD {α : Type} (l : List α) (i : Nat) (d : α) :
    l.set i (l.getD i d) = l := by
  by_cases h : i < l.length
  · rw [List.getD_eq_getElem?_getD, List.getElem?_eq_getElem h, Option.getD_some]
    exact list_set_self l i h
  · exact List.set_eq_of_length_le (by omega)

lemma list_getD_set_self {α : Type} (l : List α) (i : Nat) (x d : α) :
    (l.set i x).getD i d = if i < l.length then x else d := by
  rw [List.getD_eq_getElem?_getD, List.getElem?_set]
  by_cases h : i < l.length
  · simp [h]
  · simp [h, List.getElem?_eq_none (by omega : l.length ≤ i)]

lemma list_getD_set_ne {α : Type} (l : List α) {i k : Nat} (h : i ≠ k) (x d : α) :
    (l.set i x).getD k d = l.getD k d := by
  rw [List.getD_eq_getElem?_getD, List.getElem?_set, if_neg h, ← List.getD_eq_getElem?_getD]

lemma setCell_get_self (b : Board) (p : Pos) : setCell b p (getCell b p) = b := by
  unfold setCell getCell
  by_cases h : onBoard p
  · rw [if_pos h, if_pos h, list_set_getD, list_set_getD]
  · rw [if_neg h]

lemma setCell_setCell_same (b : Board) (p : Pos) (v w : Option Piece) :
    setCell (setCell b p v) p w = setCell b p w := by
  unfold setCell
  by_cases h : onBoard p
  · simp only [if_pos h]
    by_cases hl : p.1.toNat < b.length
    · rw [list_getD_set_self, if_pos hl, List.set_set, List.set_set]
    · have hbl : b.length ≤ p.1.toNat := by omega
      simp only [List.set_eq_of_length_le hbl]
  · simp only [if_neg h]

lemma onBoard_toNat_inj {p q : Pos} (hp : onBoard p) (hq : onBoard q)
    (h1 : p.1.toNat = q.1.toNat) (h2 : p.2.toNat = q.2.toNat) : p = q := by
  obtain ⟨a, b⟩ := p
  obtain ⟨c, d⟩ := q
  obtain ⟨hp1, hp2, hp3, hp4⟩ := hp
  obtain ⟨hq1, hq2, hq3, hq4⟩ := hq
  simp only [Prod.mk.injEq]
  omega

lemma setCell_comm (b : Board) {p q : Pos} (hpq : p ≠ q) (v w : Option Piece) :
    setCell (setCell b p v) q w = setCell (setCell b q w) p v := by
  unfold setCell
  by_cases hp : onBoard p
  · by_cases hq : onBoard q
    · simp only [if_pos hp, if_pos hq]
      by_cases hi : p.1.toNat = q.1.toNat
      · have hj : p.2.toNat ≠ q.2.toNat := fun hc => hpq (onBoard_toNat_inj hp hq hi hc)
        rw [← hi]
        by_cases hl : p.1.toNat < b.length
        · rw [list_getD_set_self, if_pos hl, list_getD_set_self, if_pos hl,
            List.set_set, List.set_set, List.set_comm _ _ _ hj]
        · have hbl : b.length ≤ p.1.toNat := by omega
          simp only [List.set_eq_of_length_le hbl]
      · rw [list_getD_set_ne _ hi, list_getD_set_ne _ (fun hc => hi hc.symm),
          List.set_comm _ _ _ hi]
    · simp only [if_pos hp, if_neg hq]
  · by_cases hq : onBoard q
    · simp only [if_neg hp, if_pos hq]
    · simp only [if_neg hp, if_neg hq]

lemma getCell_setCell_ne (b : Board) {p q : Pos} (hqp : q ≠ p) (v : Option Piece) :
    getCell (setCell b p v) q = getCell b q := by
  unfold setCell getCell
  by_cases hp : onBoard p
  · by_cases hq : onBoard q
    · simp only [if_pos hp, if_pos hq]
      by_cases hi : p.1.toNat = q.1.toNat
      · have hj : p.2.toNat ≠ q.2.toNat :=
          fun hc => hqp ((onBoard_toNat_inj hp hq hi hc).symm)
        rw [← hi, list_getD_set_self]
        by_cases hl : p.1.toNat < b.length
        · rw [if_pos hl, list_getD_set_ne _ hj]
        · rw [if_neg hl, List.getD_eq_getElem?_getD (l := b),
            List.getElem?_eq_none (by omega : b.length ≤ p.1.toNat)]
          rfl
      · rw [list_getD_set_ne _ hi]
    · simp only [if_neg hq]
  · simp only [if_neg hp]

lemma getCell_setCell_self {b : Board} (hb : BoardWF b) {p : Pos} (hp : onBoard p)
    (v : Option Piece) : getCell (setCell b p v) p = v := by
  obtain ⟨hlen, hrows⟩ := hb
  have hi : p.1.toNat < b.length := by obtain ⟨h1, h2, h3, h4⟩ := hp; omega
  have hrow : (b.getD p.1.toNat []).length = 8 := by
    rw [List.getD_eq_getElem?_getD, List.getElem?_eq_getElem hi, Option.getD_some]
    exact hrows _ (List.getElem_mem hi)
  have hj : p.2.toNat < (b.getD p.1.toNat []).length := by
    obtain ⟨h1, h2, h3, h4⟩ := hp; omega
  unfold setCell getCell
  rw [if_pos hp, if_pos hp, list_getD_set_self, if_pos hi, list_getD_set_self, if_pos hj]

lemma BoardWF_setCell {b : Board} (hb : BoardWF b) (p : Pos) (v : Option Piece) :
    BoardWF (setCell b p v) := by
  obtain ⟨hlen, hrows⟩ := hb
  unfold setCell
  by_cases hp : onBoard p
  · rw [if_pos hp]
    refine ⟨by rw [List.length_set]; exact hlen, ?_⟩
    intro row hrow
    rcases List.mem_or_eq_of_mem_set hrow with h | h
    · exact hrows _ h
    · subst h
      rw [List.length_set]
      by_cases hi : p.1.toNat < b.length
      · rw [List.getD_eq_getElem?_getD, List.getElem?_eq_getElem hi, Option.getD_some]
        exact hrows _ (List.getElem_mem hi)
      · omega
  · rw [if_neg hp]; exact ⟨hlen, hrows⟩

/-! ## Flag bookkeeping lemmas -/

lemma addCaptured_white_king_moved (g : GameState) (c : Color) (v : Option Piece) :
    (addCaptured g c v).white_king_moved = g.white_king_moved := by
  cases c <;> rfl

lemma addCaptured_black_king_moved (g : GameState) (c : Color) (v : Option Piece) :
    (addCaptured g c v).black_king_moved = g.black_king_moved := by
  cases c <;> rfl

lemma addCaptured_white_rook_a_moved (g : GameState) (c : Color) (v : Option Piece) :
    (addCaptured g c v).white_rook_a_moved = g.white_rook_a_moved := by
  cases c <;> rfl

lemma addCaptured_white_rook_h_moved (g : GameState) (c : Color) (v : Option Piece) :
    (addCaptured g c v).white_rook_h_moved = g.white_rook_h_moved := by
  cases c <;> rfl

lemma addCaptured_black_rook_a_moved (g : GameState) (c : Color) (v : Option Piece) :
    (addCaptured g c v).black_rook_a_moved = g.black_rook_a_moved := by
  cases c <;> rfl

lemma addCaptured_black_rook_h_moved (g : GameState) (c : Color) (v : Option Piece) :
    (addCaptured g c v).black_rook_h_moved = g.black_rook_h_moved := by
  cases c <;> rfl

lemma removeCaptured_white_king_moved (g : GameState) (c : Color) (v : Option Piece) :
    (removeCaptured g c v).white_king_moved = g.white_king_moved := by
  cases c <;> rfl

lemma removeCaptured_black_king_moved (g : GameState) (c : Color) (v : Option Piece) :
    (removeCaptured g c v).black_king_moved = g.black_king_moved := by
  cases c <;> rfl

lemma removeCaptured_white_rook_a_moved (g : GameState) (c : Color) (v : Option Piece) :
    (removeCaptured g c v).white_rook_a_moved = g.white_rook_a_moved := by
  cases c <;> rfl

lemma removeCaptured_white_rook_h_moved (g : GameState) (c : Color) (v : Option Piece) :
    (removeCaptured g c v).white_rook_h_moved = g.white_rook_h_moved := by
  cases c <;> rfl

lemma removeCaptured_black_rook_a_moved (g : GameState) (c : Color) (v : Option Piece) :
    (removeCaptured g c v).black_rook_a_moved = g.black_rook_a_moved := by
  cases c <;> rfl

lemma removeCaptured_black_rook_h_moved (g : GameState) (c : Color) (v : Option Piece) :
    (removeCaptured g c v).black_rook_h_moved = g.black_rook_h_moved := by
  cases c <;> rfl

lemma mm_en_passant_white_king_moved (g : GameState) (pc : Piece) (tp : Pos) :
    ((mm_en_passant g pc tp).1).white_king_moved = g.white_king_moved := by
  simp only [mm_en_passant]
  split
  · simp [addCaptured_white_king_moved]
  · rfl

lemma mm_en_passant_black_king_moved (g : GameState) (pc : Piece) (tp : Pos) :
    ((mm_en_passant g pc tp).1).black_king_moved = g.black_king_moved := by
  simp only [mm_en_passant]
  split
  · simp [addCaptured_black_king_moved]
  · rfl

lemma mm_en_passant_white_rook_a_moved (g : GameState) (pc : Piece) (tp : Pos) :
    ((mm_en_passant g pc tp).1).white_rook_a_moved = g.white_rook_a_moved := by
  simp only [mm_en_passant]
  split
  · simp [addCaptured_white_rook_a_moved]
  · rfl

lemma mm_en_passant_white_rook_h_moved (g : GameState) (pc : Piece) (tp : Pos) :
    ((mm_en_passant g pc tp).1).white_rook_h_moved = g.white_rook_h_moved := by
  simp only [mm_en_passant]
  split
  · simp [addCaptured_white_rook_h_moved]
  · rfl

lemma mm_en_passant_black_rook_a_moved (g : GameState) (pc : Piece) (tp : Pos) :
    ((mm_en_passant g pc tp).1).black_rook_a_moved = g.black_rook_a_moved := by
  simp only [mm_en_passant]
  split
  · simp [addCaptured_black_rook_a_moved]
  · rfl

lemma mm_en_passant_black_rook_h_moved (g : GameState) (pc : Piece) (tp : Pos) :
    ((mm_en_passant g pc tp).1).black_rook_h_moved = g.black_rook_h_moved := by
  simp only [mm_en_passant]
  split
  · simp [addCaptured_black_rook_h_moved]
  · rfl

lemma mm_castle_rook_white_king_moved (g : GameState) (pc : Piece) (fp tp : Pos) :
    (mm_castle_rook g pc fp tp).white_king_moved = g.white_king_moved := by
  simp only [mm_castle_rook]
  split <;> rfl

lemma mm_castle_rook_black_king_moved (g : GameState) (pc : Piece) (fp tp : Pos) :
    (mm_castle_rook g pc fp tp).black_king_moved = g.black_king_moved := by
  simp only [mm_castle_rook]
  split <;> rfl

lemma mm_castle_rook_white_rook_a_moved (g : GameState) (pc : Piece) (fp tp : Pos) :
    (mm_castle_rook g pc fp tp).white_rook_a_moved = g.white_rook_a_moved := by
  simp only [mm_castle_rook]
  split <;> rfl

lemma mm_castle_rook_white_rook_h_moved (g : GameState) (pc : Piece) (fp tp : Pos) :
    (mm_castle_rook g pc fp tp).white_rook_h_moved = g.white_rook_h_moved := by
  simp only [mm_castle_rook]
  split <;> rfl

lemma mm_castle_rook_black_rook_a_moved (g : GameState) (pc : Piece) (fp tp : Pos) :
    (mm_castle_rook g pc fp tp).black_rook_a_moved = g.black_rook_a_moved := by
  simp only [mm_castle_rook]
  split <;> rfl

lemma mm_castle_rook_black_rook_h_moved (g : GameState) (pc : Piece) (fp tp : Pos) :
    (mm_castle_rook g pc fp tp).black_rook_h_moved = g.black_rook_h_moved := by
  simp only [mm_castle_rook]
  split <;> rfl

lemma mm_flags_mono (x : GameState) (pc : Piece) (fp : Pos) :
    (x.white_king_moved = true → (mm_flags x pc fp).white_king_moved = true) ∧
    (x.black_king_moved = true → (mm_flags x pc fp).black_king_moved = true) ∧
    (x.white_rook_a_moved = true → (mm_flags x pc fp).white_rook_a_moved = true) ∧
    (x.white_rook_h_moved = true → (mm_flags x pc fp).white_rook_h_moved = true) ∧
    (x.black_rook_a_moved = true → (mm_flags x pc fp).black_rook_a_moved = true) ∧
    (x.black_rook_h_moved = true → (mm_flags x pc fp).black_rook_h_moved = true) := by
  unfold mm_flags
  split_ifs <;> simp_all

lemma make_move_white_king_moved (g : GameState) (fp tp : Pos) (promo : PieceKind) :
    (make_move g fp tp promo).white_king_moved =
      (match getCell g.board fp with
       | none => g.white_king_moved
       | some pc => (mm_flags (mm_en_passant g pc tp).1 pc fp).white_king_moved) := by
  cases hpc : getCell g.board fp with
  | none => rw [make_move.eq_def, hpc]
  | some pc =>
    rw [make_move.eq_def, hpc]
    simp only [apply_ite GameState.white_king_moved, addCaptured_white_king_moved, mm_castle_rook_white_king_moved, ite_self]

lemma make_move_black_king_moved (g : GameState) (fp tp : Pos) (promo : PieceKind) :
    (make_move g fp tp promo).black_king_moved =
      (match getCell g.board fp with
       | none => g.black_king_moved
       | some pc => (mm_flags (mm_en_passant g pc tp).1 pc fp).black_king_moved) := by
  cases hpc : getCell g.board fp with
  | none => rw [make_move.eq_def, hpc]
  | some pc =>
    rw [make_move.eq_def, hpc]
    simp only [apply_ite GameState.black_king_moved, addCaptured_black_king_moved, mm_castle_rook_black_king_moved, ite_self]

lemma make_move_white_rook_a_moved (g : GameState) (fp tp : Pos) (promo : PieceKind) :
    (make_move g fp tp promo).white_rook_a_moved =
      (match getCell g.board fp with
       | none => g.white_rook_a_moved
       | some pc => (mm_flags (mm_en_passant g pc tp).1 pc fp).white_rook_a_moved) := by
  cases hpc : getCell g.board fp with
  | none => rw [make_move.eq_def, hpc]
  | some pc =>
    rw [make_move.eq_def, hpc]
    simp only [apply_ite GameState.white_rook_a_moved, addCaptured_white_rook_a_moved, mm_castle_rook_white_rook_a_moved, ite_self]

lemma make_move_white_rook_h_moved (g : GameState) (fp tp : Pos) (promo : PieceKind) :
    (make_move g fp tp promo).white_rook_h_moved =
      (match getCell g.board fp with
       | none => g.white_rook_h_moved
       | some pc => (mm_flags (mm_en_passant g pc tp).1 pc fp).white_rook_h_moved) := by
  cases hpc : getCell g.board fp with
  | none => rw [make_move.eq_def, hpc]
  | some pc =>
    rw [make_move.eq_def, hpc]
    simp only [apply_ite GameState.white_rook_h_moved, addCaptured_white_rook_h_moved, mm_castle_rook_white_rook_h_moved, ite_self]

lemma make_move_black_rook_a_moved (g : GameState) (fp tp : Pos) (promo : PieceKind) :
    (make_move g fp tp promo).black_rook_a_moved =
      (match getCell g.board fp with
       | none => g.black_rook_a_moved
       | some pc => (mm_flags (mm_en_passant g pc tp).1 pc fp).black_rook_a_moved) := by
  cases hpc : getCell g.board fp with
  | none => rw [make_move.eq_def, hpc]
  | some pc =>
    rw [make_move.eq_def, hpc]
    simp only [apply_ite GameState.black_rook_a_moved, addCaptured_black_rook_a_moved, mm_castle_rook_black_rook_a_moved, ite_self]

lemma make_move_black_rook_h_moved (g : GameState) (fp tp : Pos) (promo : PieceKind) :
    (make_move g fp tp promo).black_rook_h_moved =
      (match getCell g.board fp with
       | none => g.black_rook_h_moved
       | some pc => (mm_flags (mm_en_passant g pc tp).1 pc fp).black_rook_h_moved) := by
  cases hpc : getCell g.board fp with
  | none => rw [make_move.eq_def, hpc]
  | some pc =>
    rw [make_move.eq_def, hpc]
    simp only [apply_ite GameState.black_rook_h_moved, addCaptured_black_rook_h_moved, mm_castle_rook_black_rook_h_moved, ite_self]

lemma undo_move_white_king_moved (g : GameState) :
    ((undo_move g).2).white_king_moved = g.white_king_moved := by
  rw [undo_move.eq_def]
  split
  · rfl
  · simp only [apply_ite GameState.white_king_moved, removeCaptured_white_king_moved, ite_self]

lemma undo_move_black_king_moved (g : GameState) :
    ((undo_move g).2).black_king_moved = g.black_king_moved := by
  rw [undo_move.eq_def]
  split
  · rfl
  · simp only [apply_ite GameState.black_king_moved, removeCaptured_black_king_moved, ite_self]

lemma undo_move_white_rook_a_moved (g : GameState) :
    ((undo_move g).2).white_rook_a_moved = g.white_rook_a_moved := by
  rw [undo_move.eq_def]
  split
  · rfl
  · simp only [apply_ite GameState.white_rook_a_moved, removeCaptured_white_rook_a_moved, ite_self]

lemma undo_move_white_rook_h_moved (g : GameState) :
    ((undo_move g).2).white_rook_h_moved = g.white_rook_h_moved := by
  rw [undo_move.eq_def]
  split
  · rfl
  · simp only [apply_ite GameState.white_rook_h_moved, removeCaptured_white_rook_h_moved, ite_self]

lemma undo_move_black_rook_a_moved (g : GameState) :
    ((undo_move g).2).black_rook_a_moved = g.black_rook_a_moved := by
  rw [undo_move.eq_def]
  split
  · rfl
  · simp only [apply_ite GameState.black_rook_a_moved, removeCaptured_black_rook_a_moved, ite_self]

lemma undo_move_black_rook_h_moved (g : GameState) :
    ((undo_move g).2).black_rook_h_moved = g.black_rook_h_moved := by
  rw [undo_move.eq_def]
  split
  · rfl
  · simp only [apply_ite GameState.black_rook_h_moved, removeCaptured_black_rook_h_moved, ite_self]

/-! ## Claim theorems: C1, C2, C8, C9 -/

set_option maxRecDepth 100000

/-- Claim C1 (refuted by the code; the claim matches the stated intent of
the undo record): applying a legal move with `make_move` and then
`undo_move` is claimed to restore board, side to move, castling flags and
`en_passant_target` exactly.  The board and the side to move are restored,
but after white's double step e2-e4 from the initial position (a legal
move, as the last two conjuncts check) the undone state carries
`en_passant_target = (5,4)` (e3, the post-move target recorded at source
line 536 under the key `en_passant_target_before`) although it was `none`
before the move; and after the further legal sequence e7-e5, Ke1-e2,
undoing the king move leaves `white_king_moved = true` because `undo_move`
never touches the flags. -/
theorem undo_round_trip_divergence :
    initial_game.en_passant_target = none ∧
    (undo_move (make_move initial_game ((6 : Int), (4 : Int)) ((4 : Int), (4 : Int))
        PieceKind.queen)).2.en_passant_target = some ((5 : Int), (4 : Int)) ∧
    (undo_move (make_move initial_game ((6 : Int), (4 : Int)) ((4 : Int), (4 : Int))
        PieceKind.queen)).2.board = initial_game.board ∧
    (undo_move (make_move initial_game ((6 : Int), (4 : Int)) ((4 : Int), (4 : Int))
        PieceKind.queen)).2.current_player = Color.white ∧
    (make_move (make_move initial_game ((6 : Int), (4 : Int)) ((4 : Int), (4 : Int))
        PieceKind.queen) ((1 : Int), (4 : Int)) ((3 : Int), (4 : Int))
        PieceKind.queen).white_king_moved = false ∧
    (undo_move (make_move (make_move (make_move initial_game ((6 : Int), (4 : Int))
        ((4 : Int), (4 : Int)) PieceKind.queen) ((1 : Int), (4 : Int)) ((3 : Int), (4 : Int))
        PieceKind.queen) ((7 : Int), (4 : Int)) ((6 : Int), (4 : Int))
        PieceKind.queen)).2.white_king_moved = true ∧
    is_valid_move 2 initial_game ((6 : Int), (4 : Int)) ((4 : Int), (4 : Int)) = true ∧
    would_be_in_check 2 initial_game ((6 : Int), (4 : Int)) ((4 : Int), (4 : Int)) = false ∧
    is_valid_move 2 (make_move (make_move initial_game ((6 : Int), (4 : Int))
        ((4 : Int), (4 : Int)) PieceKind.queen) ((1 : Int), (4 : Int)) ((3 : Int), (4 : Int))
        PieceKind.queen) ((7 : Int), (4 : Int)) ((6 : Int), (4 : Int)) = true ∧
    would_be_in_check 2 (make_move (make_move initial_game ((6 : Int), (4 : Int))
        ((4 : Int), (4 : Int)) PieceKind.queen) ((1 : Int), (4 : Int)) ((3 : Int), (4 : Int))
        PieceKind.queen) ((7 : Int), (4 : Int)) ((6 : Int), (4 : Int)) = false := by
  decide

/-- Claim C2 (refuted by the code; the claim states the self-check
invariant the engine intends): in the position `gEP` (white king a5,
white pawn e5, black pawn d5 having just double-stepped, black queen h5,
black king h8, white to move), `get_all_valid_moves` for the pawn on e5
offers the en-passant capture d6 = (2,3), because `would_be_in_check`
simulates only the plain piece relocation; but actually applying the move
with `make_move` also removes the black pawn on d5, after which the white
king on a5 = (3,0) is attacked by the queen along the fifth rank. -/
theorem legal_destinations_expose_king_en_passant :
    gEP.current_player = Color.white ∧
    getCell gEP.board ((3 : Int), (0 : Int)) = some ⟨Color.white, PieceKind.king⟩ ∧
    getCell gEP.board ((3 : Int), (4 : Int)) = some ⟨Color.white, PieceKind.pawn⟩ ∧
    (((2 : Int), (3 : Int)) ∈ get_all_valid_moves 3 gEP ((3 : Int), (4 : Int))) ∧
    getCell (make_move gEP ((3 : Int), (4 : Int)) ((2 : Int), (3 : Int))
        PieceKind.queen).board ((3 : Int), (3 : Int)) = none ∧
    is_square_attacked 3 (make_move gEP ((3 : Int), (4 : Int)) ((2 : Int), (3 : Int))
        PieceKind.queen) ((3 : Int), (0 : Int)) Color.black = true := by
  decide

/-- Claim C8: in the position created by `initialize_board` with white to
move, the union over all white pieces of `get_all_valid_moves` holds
exactly 20 moves, 16 of them by pawns and 4 by knights, and none of them
is a castling move (a king moving two columns) or an en-passant capture (a
pawn moving onto an empty square that is the en-passant target).  Fuel 2
is enough here: no simulated attack scan ever reaches the castling attack
loop from the initial position (the castling path test fails first). -/
theorem initial_position_white_moves :
    initial_game.current_player = Color.white ∧
    (movesFromAll 2 initial_game Color.white).length = 20 ∧
    (movesFromAll 2 initial_game Color.white).countP
      (fun m => decide (getCell initial_game.board m.1 =
        some ⟨Color.white, PieceKind.pawn⟩)) = 16 ∧
    (movesFromAll 2 initial_game Color.white).countP
      (fun m => decide (getCell initial_game.board m.1 =
        some ⟨Color.white, PieceKind.knight⟩)) = 4 ∧
    (movesFromAll 2 initial_game Color.white).all
      (fun m => ! decide (getCell initial_game.board m.1 =
        some ⟨Color.white, PieceKind.king⟩ ∧ (m.2.2 - m.1.2).natAbs = 2)) = true ∧
    (movesFromAll 2 initial_game Color.white).all
      (fun m => ! decide (getCell initial_game.board m.1 =
        some ⟨Color.white, PieceKind.pawn⟩ ∧ getCell initial_game.board m.2 = none ∧
        initial_game.en_passant_target = some m.2)) = true := by
  decide


/-- Claim C9: each of the six has-moved flags is monotone across engine
operations: once `make_move` sets one to `true` no later `make_move` or
`undo_move` resets it — `make_move` only ever turns flags on (first six
conjuncts), and `undo_move` leaves every flag exactly as it found it
(last six). -/
theorem moved_flags_monotone (g : GameState) (fp tp : Pos) (promo : PieceKind) :
    (g.white_king_moved = true → (make_move g fp tp promo).white_king_moved = true) ∧
    (g.black_king_moved = true → (make_move g fp tp promo).black_king_moved = true) ∧
    (g.white_rook_a_moved = true → (make_move g fp tp promo).white_rook_a_moved = true) ∧
    (g.white_rook_h_moved = true → (make_move g fp tp promo).white_rook_h_moved = true) ∧
    (g.black_rook_a_moved = true → (make_move g fp tp promo).black_rook_a_moved = true) ∧
    (g.black_rook_h_moved = true → (make_move g fp tp promo).black_rook_h_moved = true) ∧
    ((undo_move g).2).white_king_moved = g.white_king_moved ∧
    ((undo_move g).2).black_king_moved = g.black_king_moved ∧
    ((undo_move g).2).white_rook_a_moved = g.white_rook_a_moved ∧
    ((undo_move g).2).white_rook_h_moved = g.white_rook_h_moved ∧
    ((undo_move g).2).black_rook_a_moved = g.black_rook_a_moved ∧
    ((undo_move g).2).black_rook_h_moved = g.black_rook_h_moved := by
  refine ⟨?_, ?_, ?_, ?_, ?_, ?_, undo_move_white_king_moved g, undo_move_black_king_moved g,
    undo_move_white_rook_a_moved g, undo_move_white_rook_h_moved g,
    undo_move_black_rook_a_moved g, undo_move_black_rook_h_moved g⟩
  · intro h
    rw [make_move_white_king_moved g fp tp promo]
    cases hpc : getCell g.board fp with
    | none => simp only [hpc]; exact h
    | some pc =>
      simp only [hpc]
      exact (mm_flags_mono _ pc fp).1 (by rw [mm_en_passant_white_king_moved]; exact h)
  · intro h
    rw [make_move_black_king_moved g fp tp promo]
    cases hpc : getCell g.board fp with
    | none => simp only [hpc]; exact h
    | some pc =>
      simp only [hpc]
      exact (mm_flags_mono _ pc fp).2.1 (by rw [mm_en_passant_black_king_moved]; exact h)
  · intro h
    rw [make_move_white_rook_a_moved g fp tp promo]
    cases hpc : getCell g.board fp with
    | none => simp only [hpc]; exact h
    | some pc =>
      simp only [hpc]
      exact (mm_flags_mono _ pc fp).2.2.1 (by rw [mm_en_passant_white_rook_a_moved]; exact h)
  · intro h
    rw [make_move_white_rook_h_moved g fp tp promo]
    cases hpc : getCell g.board fp with
    | none => simp only [hpc]; exact h
    | some pc =>
      simp only [hpc]
      exact (mm_flags_mono _ pc fp).2.2.2.1 (by rw [mm_en_passant_white_rook_h_moved]; exact h)
  · intro h
    rw [make_move_black_rook_a_moved g fp tp promo]
    cases hpc : getCell g.board fp with
    | none => simp only [hpc]; exact h
    | some pc =>
      simp only [hpc]
      exact (mm_flags_mono _ pc fp).2.2.2.2.1 (by rw [mm_en_passant_black_rook_a_moved]; exact h)
  · intro h
    rw [make_move_black_rook_h_moved g fp tp promo]
    cases hpc : getCell g.board fp with
    | none => simp only [hpc]; exact h
    | some pc =>
      simp only [hpc]
      exact (mm_flags_mono _ pc fp).2.2.2.2.2 (by rw [mm_en_passant_black_rook_h_moved]; exact h)

/-- Concrete instance of `moved_flags_monotone`: in `gEP` every flag is
`true`, and it stays `true` through the en-passant capture. -/
theorem moved_flags_monotone_witness :
    (make_move gEP ((3 : Int), (4 : Int)) ((2 : Int), (3 : Int))
      PieceKind.queen).white_king_moved = true :=
  (moved_flags_monotone gEP ((3 : Int), (4 : Int)) ((2 : Int), (3 : Int))
    PieceKind.queen).1 (by decide)

/-! ## Claim C7: the hypothetical-move machinery restores all state -/

lemma is_square_attacked_go_snd (fuel : Nat) (pos : Pos) (byColor : Color)
    (l : List Pos) (g : GameState) :
    (is_square_attacked_go fuel pos byColor l g).2 = g := by
  induction l generalizing g with
  | nil => rfl
  | cons p rest ih =>
    rw [is_square_attacked_go]
    cases hpc : getCell g.board p with
    | none => exact ih g
    | some pc =>
      simp only []
      split
      · split
        · rfl
        · exact ih _
      · exact ih g

lemma is_square_attacked_st_snd (fuel : Nat) (g : GameState) (pos : Pos) (byColor : Color) :
    (is_square_attacked_st fuel g pos byColor).2 = g :=
  is_square_attacked_go_snd fuel pos byColor squares g

lemma board_restore (b : Board) (fp tp : Pos) :
    setCell (setCell (setCell (setCell b tp (getCell b fp)) fp none) fp (getCell b fp))
      tp (getCell b tp) = b := by
  by_cases h : fp = tp
  · subst h
    rw [setCell_setCell_same, setCell_setCell_same, setCell_setCell_same, setCell_get_self]
  · rw [setCell_setCell_same, setCell_comm _ h, setCell_setCell_same, setCell_get_self,
      setCell_get_self]

/-- Claim C7: on every return path, `would_be_in_check` hands back the
entire game state exactly as it found it (board contents, side to move,
flags, en-passant target, histories) — the only non-returning path is the
kingless exceptional one, modelled as `none`; and `is_square_attacked`
always restores `current_player` (indeed the whole state, which it only
touches through `current_player`) before returning. -/
theorem attack_simulation_frame (fuel : Nat) (g : GameState) (fp tp : Pos) :
    (∀ r : Bool × GameState, would_be_in_check_st fuel g fp tp = some r → r.2 = g) ∧
    (∀ (pos : Pos) (byColor : Color),
      (is_square_attacked_st fuel g pos byColor).2 = g) := by
  refine ⟨?_, fun pos byColor => is_square_attacked_st_snd fuel g pos byColor⟩
  intro r hr
  simp only [would_be_in_check_st] at hr
  split at hr
  · simp only [Option.some.injEq] at hr
    subst hr
    simp only [is_square_attacked_st_snd]
    rw [board_restore]
  · split at hr
    · simp at hr
    · simp only [Option.some.injEq] at hr
      subst hr
      simp only []
      rw [board_restore]

/-- Concrete instance of `attack_simulation_frame`: probing e2-e3 from the
initial position returns `(false, initial_game)` — state fully restored —
and the attack scan from e1 restores the state as well. -/
theorem attack_simulation_frame_witness :
    ((false, initial_game) : Bool × GameState).2 = initial_game ∧
    (is_square_attacked_st 1 initial_game ((7 : Int), (4 : Int)) Color.black).2
      = initial_game :=
  ⟨(attack_simulation_frame 1 initial_game ((6 : Int), (4 : Int)) ((5 : Int), (4 : Int))).1
      (false, initial_game) (by decide),
    (attack_simulation_frame 1 initial_game ((6 : Int), (4 : Int)) ((5 : Int), (4 : Int))).2
      ((7 : Int), (4 : Int)) Color.black⟩

/-! ## Claims C4 and C5: checkmate and stalemate characterization -/

lemma is_valid_move_gen_piece (attack : GameState → Pos → Color → Bool)
    (g : GameState) (fp tp : Pos) (h : is_valid_move_gen attack g fp tp = true) :
    ∃ pc : Piece, getCell g.board fp = some pc ∧ pc.color = g.current_player := by
  cases hpc : getCell g.board fp with
  | none =>
    rw [is_valid_move_gen, hpc] at h
    simp at h
  | some pc =>
    refine ⟨pc, rfl, ?_⟩
    by_cases hc : pc.color = g.current_player
    · exact hc
    · exfalso
      rw [is_valid_move_gen, hpc] at h
      simp only [is_white_piece, is_black_piece] at h
      cases hcol : pc.color <;> cases hcur : g.current_player <;>
        first
        | exact hc (hcol.trans hcur.symm)
        | (rw [hcol, hcur] at h; simp at h)

lemma has_escape_iff (fuel : Nat) (g : GameState) :
    has_escape fuel g = true ↔
      ∃ fp tp : Pos, onBoard fp ∧ onBoard tp ∧ is_valid_move fuel g fp tp = true ∧
        would_be_in_check fuel g fp tp = false := by
  unfold has_escape
  rw [List.any_eq_true]
  constructor
  · rintro ⟨fp, hfp, hband⟩
    cases hpc : getCell g.board fp with
    | none => rw [hpc] at hband; simp at hband
    | some pc =>
      rw [hpc] at hband
      simp only [] at hband
      by_cases hcol : pc.color = g.current_player
      · rw [if_pos hcol, List.any_eq_true] at hband
        obtain ⟨tp, htp, h2⟩ := hband
        rw [Bool.and_eq_true, Bool.not_eq_true'] at h2
        exact ⟨fp, tp, mem_squares.mp hfp, mem_squares.mp htp, h2.1, h2.2⟩
      · rw [if_neg hcol] at hband
        simp at hband
  · rintro ⟨fp, tp, hofp, hotp, hv, hnc⟩
    refine ⟨fp, mem_squares.mpr hofp, ?_⟩
    obtain ⟨pc, hpc, hcol⟩ := is_valid_move_gen_piece (is_square_attacked fuel) g fp tp hv
    rw [hpc]
    simp only []
    rw [if_pos hcol, List.any_eq_true]
    refine ⟨tp, mem_squares.mpr hotp, ?_⟩
    rw [Bool.and_eq_true, Bool.not_eq_true']
    exact ⟨hv, hnc⟩

/-- Claim C4: `is_checkmate` is `true` exactly when the side to move's
king is currently attacked by the opponent and no pair of board squares
gives a move that passes the geometric check `is_valid_move` and whose
simulation by `would_be_in_check` leaves the mover's king unattacked.
The hypothesis supplies the king square (positions without a king are
corrupted states on which the source raises). -/
theorem is_checkmate_iff (fuel : Nat) (g : GameState) (kp : Pos)
    (hk : find_king g.board g.current_player = some kp) :
    is_checkmate fuel g = true ↔
      (is_square_attacked fuel g kp (opponent g.current_player) = true ∧
        ∀ fp tp : Pos, onBoard fp → onBoard tp →
          ¬ (is_valid_move fuel g fp tp = true ∧
              would_be_in_check fuel g fp tp = false)) := by
  rw [is_checkmate.eq_def, hk]
  simp only []
  cases hatt : is_square_attacked fuel g kp (opponent g.current_player) with
  | false => simp [hatt]
  | true =>
    rw [if_neg (by simp)]
    simp only [eq_self_iff_true, true_and, Bool.not_eq_true']
    constructor
    · intro h fp tp hofp hotp hc
      have he : has_escape fuel g = true :=
        (has_escape_iff fuel g).mpr ⟨fp, tp, hofp, hotp, hc.1, hc.2⟩
      rw [he] at h
      exact absurd h (by simp)
    · intro h
      cases hesc : has_escape fuel g with
      | false => rfl
      | true =>
        obtain ⟨fp, tp, h1, h2, h3, h4⟩ := (has_escape_iff fuel g).mp hesc
        exact absurd ⟨h3, h4⟩ (h fp tp h1 h2)

/-- Claim C5: `is_stalemate` is `true` exactly when the side to move's
king is NOT currently attacked and no pair of board squares gives a move
passing `is_valid_move` whose simulation leaves the king unattacked. -/
theorem is_stalemate_iff (fuel : Nat) (g : GameState) (kp : Pos)
    (hk : find_king g.board g.current_player = some kp) :
    is_stalemate fuel g = true ↔
      (is_square_attacked fuel g kp (opponent g.current_player) = false ∧
        ∀ fp tp : Pos, onBoard fp → onBoard tp →
          ¬ (is_valid_move fuel g fp tp = true ∧
              would_be_in_check fuel g fp tp = false)) := by
  rw [is_stalemate.eq_def, hk]
  simp only []
  cases hatt : is_square_attacked fuel g kp (opponent g.current_player) with
  | true => simp [hatt]
  | false =>
    rw [if_neg (by simp)]
    simp only [eq_self_iff_true, true_and, Bool.not_eq_true']
    constructor
    · intro h fp tp hofp hotp hc
      have he : has_escape fuel g = true :=
        (has_escape_iff fuel g).mpr ⟨fp, tp, hofp, hotp, hc.1, hc.2⟩
      rw [he] at h
      exact absurd h (by simp)
    · intro h
      cases hesc : has_escape fuel g with
      | false => rfl
      | true =>
        obtain ⟨fp, tp, h1, h2, h3, h4⟩ := (has_escape_iff fuel g).mp hesc
        exact absurd ⟨h3, h4⟩ (h fp tp h1 h2)

/-- Concrete instance of `is_checkmate_iff` at the initial position. -/
theorem is_checkmate_iff_witness :
    is_checkmate 2 initial_game = true ↔
      (is_square_attacked 2 initial_game ((7 : Int), (4 : Int))
          (opponent initial_game.current_player) = true ∧
        ∀ fp tp : Pos, onBoard fp → onBoard tp →
          ¬ (is_valid_move 2 initial_game fp tp = true ∧
              would_be_in_check 2 initial_game fp tp = false)) :=
  is_checkmate_iff 2 initial_game ((7 : Int), (4 : Int)) (by decide)

/-- Concrete instance of `is_stalemate_iff` in the claim C2 position. -/
theorem is_stalemate_iff_witness :
    is_stalemate 2 gEP = true ↔
      (is_square_attacked 2 gEP ((3 : Int), (0 : Int))
          (opponent gEP.current_player) = false ∧
        ∀ fp tp : Pos, onBoard fp → onBoard tp →
          ¬ (is_valid_move 2 gEP fp tp = true ∧
              would_be_in_check 2 gEP fp tp = false)) :=
  is_stalemate_iff 2 gEP ((3 : Int), (0 : Int)) (by decide)

/-! ## Claim C6: en-passant capture -/

/-- Claim C6: a pawn of the side to move may legally move one square
diagonally forward onto the empty `en_passant_target` square
(`is_valid_move` accepts it), and applying that move with `make_move`
removes the opposing pawn from the square directly behind the destination
(the square the double-stepped pawn stands on) while the destination
itself receives the moving pawn; the captured pawn is recorded in the
move record's `en_passant_capture` field with the destination-capture
field `captured = none` (recorded separately).  The no-promotion
hypothesis only rules out degenerate states whose en-passant target lies
on a back rank. -/
theorem en_passant_capture_spec (fuel : Nat) (g : GameState) (fp tp : Pos)
    (promo : PieceKind)
    (hwf : BoardWF g.board) (hofp : onBoard fp) (hotp : onBoard tp)
    (hpawn : getCell g.board fp = some ⟨g.current_player, PieceKind.pawn⟩)
    (hep : g.en_passant_target = some tp)
    (hempty : getCell g.board tp = none)
    (hrow : tp.1 = fp.1 + pawnDir g.current_player)
    (hcol : (fp.2 - tp.2).natAbs = 1)
    (hbehind : getCell g.board (tp.1 - pawnDir g.current_player, tp.2)
        = some ⟨opponent g.current_player, PieceKind.pawn⟩)
    (hnopromo : ¬ mm_promotes ⟨g.current_player, PieceKind.pawn⟩ tp) :
    is_valid_move fuel g fp tp = true ∧
    getCell (make_move g fp tp promo).board (tp.1 - pawnDir g.current_player, tp.2) = none ∧
    getCell (make_move g fp tp promo).board tp
      = some ⟨g.current_player, PieceKind.pawn⟩ ∧
    (make_move g fp tp promo).move_history = g.move_history ++
      [{ from_pos := fp, to_pos := tp, piece := ⟨g.current_player, PieceKind.pawn⟩,
         captured := none, en_passant_target_before := none,
         en_passant_capture := some ⟨opponent g.current_player, PieceKind.pawn⟩,
         promoted_to := none, castled := false }] := by
  have hne : fp ≠ tp := by
    intro heq
    rw [heq] at hrow
    cases hcu : g.current_player <;> rw [hcu] at hrow <;> simp [pawnDir] at hrow
  have hc2 : ¬ (fp.2 = tp.2) := by
    intro heq
    rw [heq] at hcol
    simp at hcol
  have hdir : (if g.current_player = Color.white then (-1 : Int) else 1)
      = pawnDir g.current_player := by
    cases g.current_player <;> simp [pawnDir]
  have hEp : mm_en_passant g ⟨g.current_player, PieceKind.pawn⟩ tp =
      (addCaptured
        { g with board := setCell g.board (tp.1 - pawnDir g.current_player, tp.2) none }
        g.current_player (some ⟨opponent g.current_player, PieceKind.pawn⟩),
       some ⟨opponent g.current_player, PieceKind.pawn⟩) := by
    rw [mm_en_passant]
    simp only [hdir, hempty, hep]
    rw [if_pos (by simp), hbehind]
  have hFlags : ∀ x : GameState, mm_flags x ⟨g.current_player, PieceKind.pawn⟩ fp = x := by
    intro x
    rw [mm_flags]
    cases g.current_player <;> simp
  have hCastle : ∀ x : GameState,
      mm_castle_rook x ⟨g.current_player, PieceKind.pawn⟩ fp tp = x := by
    intro x
    rw [mm_castle_rook]
    simp
  have hNewEp : mm_new_ep ⟨g.current_player, PieceKind.pawn⟩ fp tp = none := by
    rw [mm_new_ep, if_neg]
    rintro ⟨h1, h2⟩
    rw [hrow] at h2
    cases hcu : g.current_player <;> rw [hcu] at h2 <;> simp [pawnDir] at h2
  have hmk : make_move g fp tp promo =
      { board := setCell (setCell
            (setCell g.board (tp.1 - pawnDir g.current_player, tp.2) none) tp
            (some ⟨g.current_player, PieceKind.pawn⟩)) fp none
        current_player := opponent g.current_player
        move_history := g.move_history ++
          [{ from_pos := fp, to_pos := tp, piece := ⟨g.current_player, PieceKind.pawn⟩,
             captured := none, en_passant_target_before := none,
             en_passant_capture := some ⟨opponent g.current_player, PieceKind.pawn⟩,
             promoted_to := none, castled := false }]
        captured_white := (addCaptured
          { g with board := setCell g.board (tp.1 - pawnDir g.current_player, tp.2) none }
          g.current_player (some ⟨opponent g.current_player, PieceKind.pawn⟩)).captured_white
        captured_black := (addCaptured
          { g with board := setCell g.board (tp.1 - pawnDir g.current_player, tp.2) none }
          g.current_player (some ⟨opponent g.current_player, PieceKind.pawn⟩)).captured_black
        white_king_moved := g.white_king_moved
        black_king_moved := g.black_king_moved
        white_rook_a_moved := g.white_rook_a_moved
        white_rook_h_moved := g.white_rook_h_moved
        black_rook_a_moved := g.black_rook_a_moved
        black_rook_h_moved := g.black_rook_h_moved
        en_passant_target := none } := by
    rw [make_move.eq_def, hpawn]
    simp only [hEp, hFlags, hCastle, hNewEp, hempty, if_neg hnopromo]
    simp only [ne_eq, not_true_eq_false, if_neg, ite_false]
    cases hcu : g.current_player <;> simp [addCaptured]
  have hbptp : ((tp.1 - pawnDir g.current_player, tp.2) : Pos) ≠ tp := by
    intro h
    rw [Prod.mk.injEq] at h
    obtain ⟨h1, h2⟩ := h
    cases hcu : g.current_player <;> rw [hcu] at h1 <;> simp [pawnDir] at h1
  have hbpfp : ((tp.1 - pawnDir g.current_player, tp.2) : Pos) ≠ fp := by
    intro h
    rw [Prod.mk.injEq] at h
    obtain ⟨h1, h2⟩ := h
    rw [← h2] at hc2
    exact hc2 rfl
  have hbeq : tp.1 - pawnDir g.current_player = fp.1 := by
    rw [hrow]
    ring
  have hober : onBoard ((tp.1 - pawnDir g.current_player, tp.2) : Pos) := by
    obtain ⟨a1, a2, a3, a4⟩ := hofp
    obtain ⟨b1, b2, b3, b4⟩ := hotp
    exact ⟨by omega, by omega, b3, b4⟩
  refine ⟨?_, ?_, ?_, ?_⟩
  · cases hcu : g.current_player with
    | white =>
      rw [hcu] at hrow hpawn
      simp only [pawnDir] at hrow
      rw [is_valid_move, is_valid_move_gen, is_valid_pawn_move]
      simp only [hpawn, hempty, hcu, is_white_piece, is_black_piece, hep, hrow, hcol, hc2,
        if_neg hne]
      simp
    | black =>
      rw [hcu] at hrow hpawn
      simp only [pawnDir] at hrow
      rw [is_valid_move, is_valid_move_gen, is_valid_pawn_move]
      simp only [hpawn, hempty, hcu, is_white_piece, is_black_piece, hep, hrow, hcol, hc2,
        if_neg hne]
      simp
  · rw [hmk]
    show getCell _ _ = none
    rw [getCell_setCell_ne _ hbpfp, getCell_setCell_ne _ hbptp,
      getCell_setCell_self hwf hober]
  · rw [hmk]
    show getCell _ _ = _
    rw [getCell_setCell_ne _ (Ne.symm hne),
      getCell_setCell_self (BoardWF_setCell hwf _ _) hotp]
  · rw [hmk]

/-- Concrete instance of `en_passant_capture_spec`: in `gEP` the white
pawn e5 may capture to d6, the black pawn disappears from d5 and the
record stores it in the separate en-passant field. -/
theorem en_passant_capture_spec_witness :
    is_valid_move 1 gEP ((3 : Int), (4 : Int)) ((2 : Int), (3 : Int)) = true ∧
    getCell (make_move gEP ((3 : Int), (4 : Int)) ((2 : Int), (3 : Int))
        PieceKind.queen).board
      (((2 : Int) - pawnDir gEP.current_player, (3 : Int)) : Pos) = none ∧
    getCell (make_move gEP ((3 : Int), (4 : Int)) ((2 : Int), (3 : Int))
        PieceKind.queen).board ((2 : Int), (3 : Int))
      = some ⟨gEP.current_player, PieceKind.pawn⟩ ∧
    (make_move gEP ((3 : Int), (4 : Int)) ((2 : Int), (3 : Int))
        PieceKind.queen).move_history = gEP.move_history ++
      [{ from_pos := ((3 : Int), (4 : Int)), to_pos := ((2 : Int), (3 : Int)),
         piece := ⟨gEP.current_player, PieceKind.pawn⟩,
         captured := none, en_passant_target_before := none,
         en_passant_capture := some ⟨opponent gEP.current_player, PieceKind.pawn⟩,
         promoted_to := none, castled := false }] :=
  en_passant_capture_spec 1 gEP ((3 : Int), (4 : Int)) ((2 : Int), (3 : Int))
    PieceKind.queen (by decide) (by decide) (by decide) (by decide) (by decide)
    (by decide) (by decide) (by decide) (by decide) (by decide)

/-! ## Claim C3: castling characterization -/

lemma all_intRange_iff (p : Int → Bool) (a b : Int) :
    (intRange a b).all p = true ↔ ∀ c : Int, a ≤ c → c < b → p c = true := by
  rw [List.all_eq_true]
  constructor
  · intro h c h1 h2
    exact h c (mem_intRange.mpr ⟨h1, h2⟩)
  · intro h c hc
    obtain ⟨h1, h2⟩ := mem_intRange.mp hc
    exact h c h1 h2

lemma if_false_else (c : Prop) [Decidable c] (b : Bool) :
    ((if c then false else b) = true) ↔ (¬ c ∧ b = true) := by
  split_ifs with h <;> simp [h]

/-- Claim C3: a two-column king move (the castling shape, here with the
mover's king on the source square) is accepted by `is_valid_king_move` /
`can_castle` exactly when all the preconditions of
`castlingPreconditions` hold: the mover's king never moved, the
corresponding rook (tracked per rook) never moved, the move is horizontal
(so king and rook share the row), every square strictly between king and
rook is empty, the rook occupies its home square, and no square from the
king's start column through its end column inclusive is attacked by the
opponent.  In particular any failing clause makes the move illegal. -/
theorem can_castle_characterization (fuel : Nat) (g : GameState) (fp tp : Pos)
    (hofp : onBoard fp) (hotp : onBoard tp)
    (hking : getCell g.board fp = some ⟨g.current_player, PieceKind.king⟩)
    (hcd : (fp.2 - tp.2).natAbs = 2) :
    is_valid_king_move fuel g fp tp = true ↔ castlingPreconditions fuel g fp tp := by
  obtain ⟨ho1, ho2, ho3, ho4⟩ := hofp
  obtain ⟨ht1, ht2, ht3, ht4⟩ := hotp
  rw [is_valid_king_move, is_valid_king_move_gen]
  rw [if_neg (by rintro ⟨h1, h2⟩; omega)]
  by_cases hrow : fp.1 = tp.1
  · rw [if_pos ⟨by omega, hcd⟩]
    rw [can_castle_gen, castlingPreconditions]
    simp only [hking, castleRookCol]
    cases hcur : g.current_player with
    | white =>
      by_cases hside : tp.2 > fp.2
      · have htp2 : tp.2 = fp.2 + 2 := by omega
        simp only [if_false_else, if_pos hside, hside, true_and, Option.some.injEq,
          Piece.mk.injEq, and_true, and_self, reduceCtorEq, false_and, and_false,
          not_false_eq_true, is_white_piece, decide_True, decide_False, if_true,
          eq_self_iff_true, ne_eq, hrow, not_true_eq_false, true_implies, false_implies,
          Bool.not_eq_true, not_not, ite_true, ite_false, opponent]
        constructor
        · rintro ⟨hk, hr, hra, hb, ha⟩
          have hb2 : ((intRange (fp.2 + 1) 7).all
              fun c => decide (getCell g.board (tp.1, c) = none)) = true := by
            simpa using hb
          refine ⟨hk, hr, ?_, hra, ?_⟩
          · intro c hc1 hc2
            have hx := (all_intRange_iff _ _ _).mp hb2 c (by omega) (by omega)
            simpa using hx
          · intro c hc1 hc2
            have hx := (all_intRange_iff _ _ _).mp ha c (by omega) (by omega)
            simpa using hx
        · rintro ⟨hk, hr, hb, hra, ha⟩
          have hb2 : ((intRange (fp.2 + 1) 7).all
              fun c => decide (getCell g.board (tp.1, c) = none)) = true := by
            rw [all_intRange_iff]
            intro c hc1 hc2
            simp [hb c (by omega) (by omega)]
          refine ⟨hk, hr, hra, by simpa using hb2, ?_⟩
          rw [all_intRange_iff]
          intro c hc1 hc2
          simp [ha c (by omega) (by omega)]
      · have htp2 : tp.2 = fp.2 - 2 := by omega
        simp only [if_false_else, if_neg hside, hside, true_and, Option.some.injEq,
          Piece.mk.injEq, and_true, and_self, reduceCtorEq, false_and, and_false,
          not_false_eq_true, is_white_piece, decide_True, decide_False, if_true,
          eq_self_iff_true, ne_eq, hrow, not_true_eq_false, true_implies, false_implies,
          Bool.not_eq_true, not_not, ite_true, ite_false, opponent]
        constructor
        · rintro ⟨hk, hr, hra, hb, ha⟩
          have hb2 : ((intRange (0 + 1) fp.2).all
              fun c => decide (getCell g.board (tp.1, c) = none)) = true := by
            simpa using hb
          refine ⟨hk, hr, ?_, hra, ?_⟩
          · intro c hc1 hc2
            have hx := (all_intRange_iff _ _ _).mp hb2 c (by omega) (by omega)
            simpa using hx
          · intro c hc1 hc2
            have hx := (all_intRange_iff _ _ _).mp ha c (by omega) (by omega)
            simpa using hx
        · rintro ⟨hk, hr, hb, hra, ha⟩
          have hb2 : ((intRange (0 + 1) fp.2).all
              fun c => decide (getCell g.board (tp.1, c) = none)) = true := by
            rw [all_intRange_iff]
            intro c hc1 hc2
            simp [hb c (by omega) (by omega)]
          refine ⟨hk, hr, hra, by simpa using hb2, ?_⟩
          rw [all_intRange_iff]
          intro c hc1 hc2
          simp [ha c (by omega) (by omega)]
    | black =>
      by_cases hside : tp.2 > fp.2
      · have htp2 : tp.2 = fp.2 + 2 := by omega
        simp only [if_false_else, if_pos hside, hside, true_and, Option.some.injEq,
          Piece.mk.injEq, and_true, and_self, reduceCtorEq, false_and, and_false,
          not_false_eq_true, is_white_piece, decide_True, decide_False, if_true,
          eq_self_iff_true, ne_eq, hrow, not_true_eq_false, true_implies, false_implies,
          Bool.not_eq_true, not_not, ite_true, ite_false, opponent]
        constructor
        · rintro ⟨hk, hr, hra, hb, ha⟩
          have hb2 : ((intRange (fp.2 + 1) 7).all
              fun c => decide (getCell g.board (tp.1, c) = none)) = true := by
            simpa using hb
          refine ⟨hk, hr, ?_, hra, ?_⟩
          · intro c hc1 hc2
            have hx := (all_intRange_iff _ _ _).mp hb2 c (by omega) (by omega)
            simpa using hx
          · intro c hc1 hc2
            have hx := (all_intRange_iff _ _ _).mp ha c (by omega) (by omega)
            simpa using hx
        · rintro ⟨hk, hr, hb, hra, ha⟩
          have hb2 : ((intRange (fp.2 + 1) 7).all
              fun c => decide (getCell g.board (tp.1, c) = none)) = true := by
            rw [all_intRange_iff]
            intro c hc1 hc2
            simp [hb c (by omega) (by omega)]
          refine ⟨hk, hr, hra, by simpa using hb2, ?_⟩
          rw [all_intRange_iff]
          intro c hc1 hc2
          simp [ha c (by omega) (by omega)]
      · have htp2 : tp.2 = fp.2 - 2 := by omega
        simp only [if_false_else, if_neg hside, hside, true_and, Option.some.injEq,
          Piece.mk.injEq, and_true, and_self, reduceCtorEq, false_and, and_false,
          not_false_eq_true, is_white_piece, decide_True, decide_False, if_true,
          eq_self_iff_true, ne_eq, hrow, not_true_eq_false, true_implies, false_implies,
          Bool.not_eq_true, not_not, ite_true, ite_false, opponent]
        constructor
        · rintro ⟨hk, hr, hra, hb, ha⟩
          have hb2 : ((intRange (0 + 1) fp.2).all
              fun c => decide (getCell g.board (tp.1, c) = none)) = true := by
            simpa using hb
          refine ⟨hk, hr, ?_, hra, ?_⟩
          · intro c hc1 hc2
            have hx := (all_intRange_iff _ _ _).mp hb2 c (by omega) (by omega)
            simpa using hx
          · intro c hc1 hc2
            have hx := (all_intRange_iff _ _ _).mp ha c (by omega) (by omega)
            simpa using hx
        · rintro ⟨hk, hr, hb, hra, ha⟩
          have hb2 : ((intRange (0 + 1) fp.2).all
              fun c => decide (getCell g.board (tp.1, c) = none)) = true := by
            rw [all_intRange_iff]
            intro c hc1 hc2
            simp [hb c (by omega) (by omega)]
          refine ⟨hk, hr, hra, by simpa using hb2, ?_⟩
          rw [all_intRange_iff]
          intro c hc1 hc2
          simp [ha c (by omega) (by omega)]
  · rw [if_neg (by rintro ⟨h1, h2⟩; omega)]
    rw [castlingPreconditions]
    constructor
    · intro h
      exact absurd h (by simp)
    · rintro ⟨_, _, _, h4, _⟩
      exact absurd h4.symm hrow

/-- Concrete instance of `can_castle_characterization`: white castling
kingside from e1 to g1 in the castling-ready position `gCastle`. -/
theorem can_castle_characterization_witness :
    is_valid_king_move 2 gCastle ((7 : Int), (4 : Int)) ((7 : Int), (6 : Int)) = true ↔
      castlingPreconditions 2 gCastle ((7 : Int), (4 : Int)) ((7 : Int), (6 : Int)) :=
  can_castle_characterization 2 gCastle ((7 : Int), (4 : Int)) ((7 : Int), (6 : Int))
    (by decide) (by decide) (by decide) (by decide)

/-! ## Claim C10: the path-clear scan -/

section PathClear

variable (b : Board) (fp tp : Pos)

lemma rowStep_cases : (rowStep fp tp = 0 ∧ fp.1 = tp.1) ∨ (rowStep fp tp = 1 ∧ fp.1 < tp.1) ∨
    (rowStep fp tp = -1 ∧ tp.1 < fp.1) := by
  unfold rowStep
  split_ifs with h1 h2
  · exact Or.inl ⟨rfl, h1⟩
  · exact Or.inr (Or.inl ⟨rfl, by omega⟩)
  · exact Or.inr (Or.inr ⟨rfl, by omega⟩)

lemma colStep_cases : (colStep fp tp = 0 ∧ fp.2 = tp.2) ∨ (colStep fp tp = 1 ∧ fp.2 < tp.2) ∨
    (colStep fp tp = -1 ∧ tp.2 < fp.2) := by
  unfold colStep
  split_ifs with h1 h2
  · exact Or.inl ⟨rfl, h1⟩
  · exact Or.inr (Or.inl ⟨rfl, by omega⟩)
  · exact Or.inr (Or.inr ⟨rfl, by omega⟩)

lemma linePoint_dist (hal : aligned fp tp) :
    tp.1 = fp.1 + (lineDist fp tp : Int) * rowStep fp tp ∧
    tp.2 = fp.2 + (lineDist fp tp : Int) * colStep fp tp := by
  rcases rowStep_cases fp tp with ⟨h1, h2⟩ | ⟨h1, h2⟩ | ⟨h1, h2⟩ <;>
    rcases colStep_cases fp tp with ⟨h3, h4⟩ | ⟨h3, h4⟩ | ⟨h3, h4⟩ <;>
    rw [h1, h3] <;>
    simp only [mul_zero, mul_one, mul_neg_one, lineDist] <;>
    rcases hal with hA | hA | hA <;>
    constructor <;>
    omega

end PathClear

section PathClear2

variable (b : Board) (fp tp : Pos)

lemma linePoint_succ (k : Nat) :
    ((linePoint fp tp k).1 + rowStep fp tp, (linePoint fp tp k).2 + colStep fp tp)
      = linePoint fp tp (k + 1) := by
  unfold linePoint
  rw [Prod.mk.injEq]
  constructor <;> push_cast <;> ring

lemma linePoint_eq_iff (hne : fp ≠ tp) (hal : aligned fp tp) (k : Nat)
    (h1 : 1 ≤ k) (h2 : k ≤ lineDist fp tp) :
    linePoint fp tp k = tp ↔ k = lineDist fp tp := by
  obtain ⟨hf1, hf2⟩ := linePoint_dist fp tp hal
  constructor
  · intro he
    unfold linePoint at he
    rw [Prod.mk.injEq] at he
    obtain ⟨he1, he2⟩ := he
    rcases rowStep_cases fp tp with ⟨hr, hr2⟩ | ⟨hr, hr2⟩ | ⟨hr, hr2⟩ <;>
      rcases colStep_cases fp tp with ⟨hc, hc2⟩ | ⟨hc, hc2⟩ | ⟨hc, hc2⟩ <;>
      simp only [hr, hc, mul_zero, mul_one, mul_neg_one] at he1 he2 hf1 hf2
    · exact absurd (Prod.ext hr2 hc2) hne
    all_goals omega
  · rintro rfl
    unfold linePoint
    rw [← hf1, ← hf2]

lemma path_clear_aux_spec (hne : fp ≠ tp) (hal : aligned fp tp) :
    ∀ (n k : Nat), 1 ≤ k → k ≤ lineDist fp tp → lineDist fp tp - k ≤ n →
      (path_clear_aux b tp (rowStep fp tp) (colStep fp tp) n (linePoint fp tp k) = true ↔
        ∀ j : Nat, k ≤ j → j < lineDist fp tp → getCell b (linePoint fp tp j) = none) := by
  intro n
  induction n with
  | zero =>
    intro k h1 h2 h3
    have hk : k = lineDist fp tp := by omega
    rw [path_clear_aux]
    constructor
    · intro _ j hj1 hj2
      omega
    · intro _
      rfl
  | succ n ih =>
    intro k h1 h2 h3
    rw [path_clear_aux]
    by_cases hk : k = lineDist fp tp
    · rw [if_pos ((linePoint_eq_iff fp tp hne hal k h1 h2).mpr hk)]
      constructor
      · intro _ j hj1 hj2
        omega
      · intro _
        rfl
    · rw [if_neg (fun hc => hk ((linePoint_eq_iff fp tp hne hal k h1 h2).mp hc))]
      by_cases hc : getCell b (linePoint fp tp k) = none
      · rw [if_neg (by simp [hc]), linePoint_succ,
          ih (k + 1) (by omega) (by omega) (by omega)]
        constructor
        · intro h j hj1 hj2
          rcases Nat.eq_or_lt_of_le hj1 with he | hl
          · rw [← he]
            exact hc
          · exact h j (by omega) hj2
        · intro h j hj1 hj2
          exact h j (by omega) hj2
      · rw [if_pos (by simp [hc])]
        constructor
        · intro hff
          simp at hff
        · intro h
          exact absurd (h k (le_refl k) (by omega)) hc

end PathClear2

lemma bool_eq_of_iff {a b : Bool} (h : a = true ↔ b = true) : a = b := by
  cases a <;> cases b <;> simp_all

/-- Claim C10: for distinct in-board squares on the same row, column or
diagonal, the `is_path_clear` walk stops after at most 7 steps
(`lineDist ≤ 7`, and fuel 7 already computes the same answer as the
embedding's fuel 8), visits only in-board squares (every strictly-between
walk point is on the board), returns `true` exactly when every square
strictly between the two is empty, and never inspects the destination
square (overwriting the destination never changes the answer).  The last
three conjuncts show the alignment precondition is established by every
caller: the rook and bishop validity predicates consult `is_path_clear`
only under their alignment guards, and `is_valid_move` rejects
`from = to` before ever dispatching to them. -/
theorem is_path_clear_spec (b : Board) (fp tp : Pos)
    (hofp : onBoard fp) (hotp : onBoard tp) (hne : fp ≠ tp) (hal : aligned fp tp) :
    lineDist fp tp ≤ 7 ∧
    (∀ k : Nat, 0 < k → k < lineDist fp tp → onBoard (linePoint fp tp k)) ∧
    (is_path_clear b fp tp = true ↔
      ∀ k : Nat, 0 < k → k < lineDist fp tp → getCell b (linePoint fp tp k) = none) ∧
    (∀ v : Option Piece, is_path_clear (setCell b tp v) fp tp = is_path_clear b fp tp) ∧
    path_clear_aux b tp (rowStep fp tp) (colStep fp tp) 7
        (fp.1 + rowStep fp tp, fp.2 + colStep fp tp) = is_path_clear b fp tp ∧
    (∀ (g : GameState) (fp2 tp2 : Pos), is_valid_rook_move g fp2 tp2
        = (decide (fp2.1 = tp2.1 ∨ fp2.2 = tp2.2) && is_path_clear g.board fp2 tp2)) ∧
    (∀ (g : GameState) (fp2 tp2 : Pos), is_valid_bishop_move g fp2 tp2
        = (decide ((fp2.1 - tp2.1).natAbs = (fp2.2 - tp2.2).natAbs) &&
            is_path_clear g.board fp2 tp2)) ∧
    (∀ (fuel : Nat) (g : GameState) (p : Pos), is_valid_move fuel g p p = false) := by
  obtain ⟨ho1, ho2, ho3, ho4⟩ := hofp
  obtain ⟨ht1, ht2, ht3, ht4⟩ := hotp
  have hne2 : ¬(fp.1 = tp.1 ∧ fp.2 = tp.2) := fun ⟨a, c⟩ => hne (Prod.ext a c)
  have hd1 : 1 ≤ lineDist fp tp := by unfold lineDist; omega
  have hd7 : lineDist fp tp ≤ 7 := by unfold lineDist; omega
  have hstart : ((fp.1 + rowStep fp tp, fp.2 + colStep fp tp) : Pos) = linePoint fp tp 1 := by
    unfold linePoint
    rw [Prod.mk.injEq]
    constructor <;> simp
  have hiff : ∀ b2 : Board, (is_path_clear b2 fp tp = true ↔
      ∀ k : Nat, 0 < k → k < lineDist fp tp → getCell b2 (linePoint fp tp k) = none) := by
    intro b2
    have hmain := path_clear_aux_spec b2 fp tp hne hal 8 1 (by omega) hd1 (by omega)
    constructor
    · intro h k hk1 hk2
      refine hmain.mp ?_ k (by omega) hk2
      rw [is_path_clear, hstart] at h
      exact h
    · intro h
      rw [is_path_clear, hstart]
      exact hmain.mpr (fun j hj1 hj2 => h j (by omega) hj2)
  refine ⟨hd7, ?_, hiff b, ?_, ?_, ?_, ?_, ?_⟩
  · intro k hk1 hk2
    obtain ⟨hf1, hf2⟩ := linePoint_dist fp tp hal
    unfold linePoint onBoard
    rcases rowStep_cases fp tp with ⟨hr, hr2⟩ | ⟨hr, hr2⟩ | ⟨hr, hr2⟩ <;>
      rcases colStep_cases fp tp with ⟨hc, hc2⟩ | ⟨hc, hc2⟩ | ⟨hc, hc2⟩ <;>
      simp only [hr, hc, mul_zero, mul_one, mul_neg_one, lineDist] at hf1 hf2 hk2 ⊢ <;>
      exact ⟨by omega, by omega, by omega, by omega⟩
  · intro v
    apply bool_eq_of_iff
    rw [hiff b, hiff (setCell b tp v)]
    have hnd : ∀ k : Nat, 0 < k → k < lineDist fp tp → linePoint fp tp k ≠ tp := by
      intro k hk1 hk2 hcon
      have := (linePoint_eq_iff fp tp hne hal k (by omega) (by omega)).mp hcon
      omega
    constructor
    · intro h k hk1 hk2
      have := h k hk1 hk2
      rwa [getCell_setCell_ne _ (hnd k hk1 hk2)] at this
    · intro h k hk1 hk2
      rw [getCell_setCell_ne _ (hnd k hk1 hk2)]
      exact h k hk1 hk2
  · apply bool_eq_of_iff
    rw [is_path_clear, hstart]
    exact (path_clear_aux_spec b fp tp hne hal 7 1 (by omega) hd1 (by omega)).trans
      (path_clear_aux_spec b fp tp hne hal 8 1 (by omega) hd1 (by omega)).symm
  · intro g fp2 tp2
    rw [is_valid_rook_move]
    by_cases hc : fp2.1 ≠ tp2.1 ∧ fp2.2 ≠ tp2.2
    · rw [if_pos hc]
      have : ¬(fp2.1 = tp2.1 ∨ fp2.2 = tp2.2) := by tauto
      simp [this]
    · rw [if_neg hc]
      have : fp2.1 = tp2.1 ∨ fp2.2 = tp2.2 := by tauto
      simp [this]
  · intro g fp2 tp2
    rw [is_valid_bishop_move]
    by_cases hc : (fp2.1 - tp2.1).natAbs ≠ (fp2.2 - tp2.2).natAbs
    · rw [if_pos hc]
      simp [hc]
    · rw [if_neg hc]
      have : (fp2.1 - tp2.1).natAbs = (fp2.2 - tp2.2).natAbs := by tauto
      simp [this]
  · intro fuel g p
    rw [is_valid_move, is_valid_move_gen]
    rw [if_pos rfl]

/-- Concrete instance of `is_path_clear_spec`: the walk from a1 = (7,0)
toward d1 = (7,3) on the initial board. -/
theorem is_path_clear_spec_witness :
    lineDist ((7 : Int), (0 : Int)) ((7 : Int), (3 : Int)) ≤ 7 ∧
    (is_path_clear initial_board ((7 : Int), (0 : Int)) ((7 : Int), (3 : Int)) = true ↔
      ∀ k : Nat, 0 < k → k < lineDist ((7 : Int), (0 : Int)) ((7 : Int), (3 : Int)) →
        getCell initial_board
          (linePoint ((7 : Int), (0 : Int)) ((7 : Int), (3 : Int)) k) = none) :=
  ⟨(is_path_clear_spec initial_board ((7 : Int), (0 : Int)) ((7 : Int), (3 : Int))
      (by decide) (by decide) (by decide) (Or.inl rfl)).1,
    (is_path_clear_spec initial_board ((7 : Int), (0 : Int)) ((7 : Int), (3 : Int))
      (by decide) (by decide) (by decide) (Or.inl rfl)).2.2.1⟩
